import Mathlib

/-!
# Verification of the Ageing Futures simulation core

A shallow embedding, in Lean, of the simulation engine of the
`ageing_futures` repository (`src/ageing_futures/sim/*.py`), together with
theorems settling the specification claims about it.

Conventions of the embedding:
* numpy float arrays become functions `ℕ → ℝ` (index = individual), with the
  cohort size carried separately, mirroring the columnar `Cohort.data` dict;
* Python dicts with string keys become association lists `List (String × _)`
  with insert-or-replace update, preserving insertion order;
* the numpy `Generator` returned by `rng(seed)` is modelled as an abstract
  value `Gen` produced by a caller-supplied pure function of the seed
  (`np.random.default_rng` has no global state); each `gen.random(n)` call
  site reads its own batch of the generator's uniform tape and `gen.gamma`
  reads the gamma tape, so draws are a pure function of seed and call site;
* fallible code (`raise` / `KeyError`) becomes `Except String _`.

`ensure_competing_risk` (a pure arithmetic helper, never reached by `exp`)
is embedded over `ℚ` so that its witnesses evaluate; the hazard pipeline
uses `ℝ` with `Real.exp`.
-/

namespace AgeingFutures

/-- `np.clip(x, lo, hi)`. -/
noncomputable def clip (x lo hi : ℝ) : ℝ := min (max x lo) hi

/-- `array.astype(bool)` on one float cell: nonzero is `True`. -/
noncomputable def toB (x : ℝ) : Bool := if x = 0 then false else true

/-- `bool_array.astype(float)` on one cell. -/
def boolFloat (b : Bool) : ℝ := if b then 1 else 0

/-- `float_array.astype(int)` on one cell (numpy truncates toward zero). -/
noncomputable def truncZ (x : ℝ) : ℤ := if 0 ≤ x then ⌊x⌋ else -⌊-x⌋

/-- `dict.get(key, default)` for a string-keyed dict. -/
def mget (m : List (String × ℝ)) (k : String) (d : ℝ) : ℝ :=
  match m.lookup k with
  | some v => v
  | none => d

/-- `dict[key] = value`: replace in place if the key exists (insertion order
is preserved), else append. -/
def setk {α : Type} (m : List (String × α)) (k : String) (v : α) :
    List (String × α) :=
  if (m.lookup k).isSome then
    m.map (fun kv => if kv.1 = k then (k, v) else kv)
  else
    m ++ [(k, v)]

/-- Python `a | b` on dicts: entries of `b` override entries of `a`. -/
def mergeRight (a b : List (String × ℝ)) : List (String × ℝ) :=
  b.foldl (fun acc kv => setk acc kv.1 kv.2) a

/-- Number of indices `j < n` where the boolean array holds
(`mask.sum()` over an `n`-element boolean array). -/
def countTrue (f : ℕ → Bool) (n : ℕ) : ℕ :=
  ((Finset.range n).filter (fun j => f j = true)).card

/-- `mask.sum()` as the float the engine mixes into metrics. -/
def countTrueR (f : ℕ → Bool) (n : ℕ) : ℝ := (countTrue f n : ℝ)

/-! ## src/ageing_futures/sim/hazards.py -/

/-- `log_linear_predictor`: intercept plus the sum of `coef * feature`
over the coefficient dict, silently skipping coefficient keys that have no
matching feature array. -/
def log_linear_predictor (intercept : ℝ) (coefficients : List (String × ℝ))
    (features : List (String × (ℕ → ℝ))) : ℕ → ℝ :=
  fun j =>
    coefficients.foldl
      (fun lp kv =>
        match features.lookup kv.1 with
        | some values => lp + kv.2 * values j
        | none => lp)
      intercept

/-- `hazard_to_probability`: `1 - exp(-max(hazard,0) * dt_months/12)`,
clipped into `[0,1]`. -/
noncomputable def hazard_to_probability (hazard : ℕ → ℝ) (dt_months : ℝ) :
    ℕ → ℝ :=
  fun j => clip (1 - Real.exp (-(max (hazard j) 0) * (dt_months / 12))) 0 1

/-- `log_hazard_to_probability`: log-link, `hazard = exp(lp)`. -/
noncomputable def log_hazard_to_probability (lp : ℕ → ℝ) (dt_months : ℝ) :
    ℕ → ℝ :=
  hazard_to_probability (fun j => Real.exp (lp j)) dt_months

/-! `ensure_competing_risk`, embedded over `ℚ`.  The numpy arrays (all of one
common length `n`) are modelled as functions `ℕ → ℚ`; `n` only enters through
`np.max` over the excess array. -/

/-- `total = Σ arr` (the running `total += arr` loop). -/
def crTotal (ps : List (ℕ → ℚ)) : ℕ → ℚ :=
  ps.foldl (fun t a => fun j => t j + a j) (fun _ => 0)

/-- `excess = np.maximum(total - 1.0, 0.0)`. -/
def crExcess (ps : List (ℕ → ℚ)) : ℕ → ℚ :=
  fun j => max (crTotal ps j - 1) 0

/-- `float(np.max(excess))` over the `n` individuals (the excess array is
non-negative, so folding `max` from `0` agrees with `np.max` for `n ≥ 1`). -/
def crMaxExcess (n : ℕ) (ps : List (ℕ → ℚ)) : ℚ :=
  (List.range n).foldl (fun m j => max m (crExcess ps j)) 0

/-- `np.clip` over `ℚ`. -/
def clipQ (x lo hi : ℚ) : ℚ := min (max x lo) hi

/-- `ensure_competing_risk`: if the largest per-individual excess over 1 is at
most `1e-8`, return the vectors unchanged, else shrink each vector by its
share of the excess and re-clip into `[0,1]`. -/
def ensure_competing_risk (n : ℕ) (ps : List (ℕ → ℚ)) : List (ℕ → ℚ) :=
  if crMaxExcess n ps ≤ 1 / 100000000 then ps
  else
    ps.map (fun arr => fun j =>
      clipQ (arr j - crExcess ps j * (arr j / (crTotal ps j + 1 / 1000000000000)))
        0 1)

/-! ## src/ageing_futures/sim/states.py -/

/-- `Cohort`: the columnar cohort record.  Each numpy array of
`Cohort.data` becomes one function field (all of common length `size`). -/
structure Cohort where
  size : ℕ
  age : ℕ → ℝ
  imd_quintile : ℕ → ℝ
  community_capacity : ℕ → ℝ
  heat_exposure : ℕ → ℝ
  cold_exposure : ℕ → ℝ
  hospital_beds_per_1k : ℕ → ℝ
  care_home_beds_per_1k : ℕ → ℝ
  ltc_state : ℕ → ℝ
  disability : ℕ → ℝ
  hospitalised : ℕ → ℝ
  care_home : ℕ → ℝ
  alive : ℕ → ℝ
  months_elapsed : ℤ

/-- `Cohort.copy`: the source copies every array (`v.copy()`); under value
semantics a deep copy is the cohort itself, so the engine's working copy
shares nothing mutable with the caller's snapshot. -/
def Cohort.copy (c : Cohort) : Cohort := c

/-- `SimulationTimestepResult` (the per-month metrics record; the engine
also appends the same numbers to `monthly_records`, so one structure
stands for both). -/
structure SimulationTimestepResult where
  month_index : ℕ
  incidence : ℝ
  hospital_admissions : ℝ
  bed_days : ℝ
  care_home_admissions : ℝ
  deaths : ℝ
  costs_gbp : ℝ
  qalys : ℝ
  disability_prevalence : ℝ
  equity_gap_disability : ℝ

/-! ## src/ageing_futures/sim/utils.py — configuration records -/

/-- `TransitionDefinition`. -/
structure TransitionDefinition where
  intercept : ℝ
  coefficients : List (String × ℝ)

/-- `LengthOfStayConfig`. -/
structure LengthOfStayConfig where
  mean : ℝ
  overdispersion : ℝ
  capacity_multiplier : ℝ

/-- `TransitionsConfig`. -/
structure TransitionsConfig where
  time_step_months : ℤ
  transitions : List (String × TransitionDefinition)
  length_of_stay : List (String × LengthOfStayConfig)

/-- `PolicyConfig` (the unused `target`/`name`/`description` metadata
fields are omitted: the engine never reads them). -/
structure PolicyConfig where
  id : String
  cost_per_capita : ℝ
  effects : List (String × ℝ)
  lag_months : ℤ
  diminishing_return : ℝ

/-- `PoliciesConfig`. -/
structure PoliciesConfig where
  policies : List PolicyConfig
  round_budget_gbp : ℝ

/-- `CostsConfig`. -/
structure CostsConfig where
  unit_costs : List (String × ℝ)
  qaly_weights : List (String × ℝ)

/-- `ScoringConfig` (pydantic restricts `normalisation` to
`zscore`/`minmax`; the embedding keeps it a string, as the code's
`_normalise` treats everything that is not `"zscore"` as min-max). -/
structure ScoringConfig where
  weights : List (String × ℝ)
  equity_outcomes : List String
  normalisation : String

/-- `ConfigBundle` (the `baseline` member is never read by
`simulate_round`, so it is omitted here; the disk-backed
`load_config_bundle` default is external I/O and the bundle is therefore a
required argument of the embedded engine). -/
structure ConfigBundle where
  transitions : TransitionsConfig
  policies : PoliciesConfig
  costs : CostsConfig
  scoring : ScoringConfig

/-! ## src/ageing_futures/sim/capacity.py -/

/-- `bool_array.mean()` for a column of the cohort: fraction of nonzero
entries. -/
noncomputable def boolMean (col : ℕ → ℝ) (n : ℕ) : ℝ :=
  (countTrue (fun j => toB (col j)) n : ℝ) / n

/-- `float_array.mean()`. -/
noncomputable def floatMean (col : ℕ → ℝ) (n : ℕ) : ℝ :=
  (∑ j ∈ Finset.range n, col j) / n

/-- `hospital_occupancy` in `capacity_feedback`. -/
noncomputable def hospitalOccupancy (c : Cohort) : ℝ :=
  boolMean c.hospitalised c.size * 1000 /
    max (floatMean c.hospital_beds_per_1k c.size) 0.1

/-- `care_occupancy` in `capacity_feedback`. -/
noncomputable def careOccupancy (c : Cohort) : ℝ :=
  boolMean c.care_home c.size * 1000 /
    max (floatMean c.care_home_beds_per_1k c.size) 0.1

/-- `hospital_pressure = max(0, hospital_occupancy - 1)`. -/
noncomputable def hospitalPressure (c : Cohort) : ℝ :=
  max 0 (hospitalOccupancy c - 1)

/-- `care_pressure = max(0, care_occupancy - 1)`. -/
noncomputable def carePressure (c : Cohort) : ℝ :=
  max 0 (careOccupancy c - 1)

/-- The three values `capacity_feedback` returns (a fixed-key dict in the
source). -/
structure CapacityModifiers where
  length_of_stay : ℝ
  mortality_multiplier : ℝ
  disability_persistence : ℝ

/-- `capacity_feedback`: congestion pressures from current occupancy, and
the derived multipliers.  Note: only the length-of-stay multiplier is
rescaled by the external `capacity_hospital` modifier and only the
disability-persistence multiplier by `capacity_community`; the mortality
multiplier is returned unscaled. -/
noncomputable def capacity_feedback (c : Cohort) (base_length_of_stay : ℝ)
    (modifiers : List (String × ℝ)) : CapacityModifiers :=
  let hospital_pressure := hospitalPressure c
  let care_pressure := carePressure c
  let los_multiplier :=
    (1 + hospital_pressure * 0.3) * (1 + mget modifiers "capacity_hospital" 0)
  let mortality_multiplier := 1 + hospital_pressure * 0.2
  let disability_persistence :=
    (1 + care_pressure * 0.15) * (1 + mget modifiers "capacity_community" 0)
  { length_of_stay := base_length_of_stay * los_multiplier
    mortality_multiplier := mortality_multiplier
    disability_persistence := disability_persistence }

/-! ## src/ageing_futures/sim/policies.py -/

/-- `ActivePolicy`. -/
structure ActivePolicy where
  policy : PolicyConfig
  intensity : ℝ
  months_active : ℤ

/-- `ActivePolicy.ramp`. -/
noncomputable def ActivePolicy.ramp (a : ActivePolicy) : ℝ :=
  let lag := max a.policy.lag_months 0
  if a.months_active ≤ lag then 0
  else
    let effective_months : ℝ := ((a.months_active - lag : ℤ) : ℝ)
    clip (1 - Real.exp (-effective_months / 6)) 0 1

/-- `ActivePolicy.diminishing_multiplier`. -/
noncomputable def ActivePolicy.diminishing_multiplier (a : ActivePolicy) : ℝ :=
  let dim := max 0 (min 1 a.policy.diminishing_return)
  1 - dim * (1 - clip a.intensity 0 1)

/-- `ActivePolicy.effect_strength`. -/
noncomputable def ActivePolicy.effect_strength (a : ActivePolicy) : ℝ :=
  clip a.intensity 0 1 * a.ramp * a.diminishing_multiplier

/-- A decision detail dict (`{"intensity": .., "coverage": ..}`). -/
abbrev DecisionDetail := List (String × ℝ)

/-- A decision mapping `policy_id -> detail`; `None` and `{}` behave
identically in the source (both falsy), so the embedding uses the list. -/
abbrev Decisions := List (String × DecisionDetail)

/-- `{policy.id: policy for policy in policies}[pid]`: on duplicate ids the
comprehension keeps the last occurrence. -/
def policyById (ps : List PolicyConfig) (pid : String) : Option PolicyConfig :=
  ps.reverse.find? (fun p => p.id = pid)

/-- One iteration of the `build_active_policies` loop over the decision
items. -/
noncomputable def buildActiveStep (policies_cfg : PoliciesConfig)
    (months_elapsed : List (String × ℤ))
    (active : List (String × ActivePolicy)) (pd : String × DecisionDetail) :
    List (String × ActivePolicy) :=
  match policyById policies_cfg.policies pd.1 with
  | none => active
  | some policy =>
      let intensity := mget pd.2 "intensity" 1
      let months_active := ((months_elapsed.lookup pd.1).getD 0)
      setk active pd.1
        { policy := policy, intensity := intensity,
          months_active := months_active }

/-- `build_active_policies`: walk the decision mapping; ids absent from the
catalogue are skipped (`continue`), present ones become `ActivePolicy`
entries keyed by id. -/
noncomputable def build_active_policies (policies_cfg : PoliciesConfig)
    (decisions : Decisions) (months_elapsed : List (String × ℤ)) :
    List (String × ActivePolicy) :=
  decisions.foldl (buildActiveStep policies_cfg months_elapsed) []

/-- `aggregate_policy_effects`: sum `effect_value * strength` into the
modifier dict, skipping policies with non-positive strength. -/
noncomputable def aggregate_policy_effects (active : List ActivePolicy) :
    List (String × ℝ) :=
  active.foldl
    (fun modifiers a =>
      if a.effect_strength ≤ 0 then modifiers
      else
        a.policy.effects.foldl
          (fun m kv => setk m kv.1 (mget m kv.1 0 + kv.2 * a.effect_strength))
          modifiers)
    []

/-- `calculate_policy_cost`: ids absent from the catalogue contribute
nothing (`continue`); the rest cost
`cost_per_capita * cohort_size * intensity * coverage`. -/
def calculate_policy_cost (policies_cfg : PoliciesConfig)
    (decisions : Decisions) (cohort_size : ℕ) : ℝ :=
  decisions.foldl
    (fun total pd =>
      match policyById policies_cfg.policies pd.1 with
      | none => total
      | some policy =>
          total + policy.cost_per_capita * (cohort_size : ℝ) *
            mget pd.2 "intensity" 1 * mget pd.2 "coverage" 1)
    0

/-! ## src/ageing_futures/sim/shocks.py -/

/-- `Shock`. -/
structure Shock where
  name : String
  description : String
  duration_months : ℤ
  modifiers : List (String × ℝ)

/-- `PREDEFINED_SHOCKS["industrial_action"]`. -/
def industrialActionShock : Shock :=
  { name := "industrial_action",
    description := "Workforce strike reduces capacity.",
    duration_months := 1,
    modifiers := [("capacity_hospital", -0.2), ("capacity_community", -0.15)] }

/-- `PREDEFINED_SHOCKS` (as the list of its values, in source order). -/
def PREDEFINED_SHOCKS : List Shock :=
  [ { name := "heatwave",
      description := "Sustained heat raises frailty and hospitalisation risk.",
      duration_months := 2,
      modifiers := [("shock_hospital", 0.25), ("shock_mortality", 0.15)] },
    { name := "cold_snap",
      description := "Winter cold strains capacity and drives mortality.",
      duration_months := 3,
      modifiers := [("shock_mortality", 0.2), ("shock_hospital", 0.1)] },
    { name := "flu_season",
      description := "Influenza season raises admissions but short-lived.",
      duration_months := 3,
      modifiers := [("shock_hospital", 0.18)] },
    industrialActionShock ]

/-- `active_shock_modifiers`: sum the modifier bundles of all active
shocks into one dict. -/
def active_shock_modifiers (active : List Shock) : List (String × ℝ) :=
  active.foldl
    (fun modifiers s =>
      s.modifiers.foldl
        (fun m kv => setk m kv.1 (mget m kv.1 0 + kv.2))
        modifiers)
    []

/-! ## src/ageing_futures/sim/scoring.py

A pandas `DataFrame` is embedded as a list of column names plus one
total row-function per row (meaningful on the listed columns); column
assignment updates every row function and appends the name if new.  The
string-valued `team` column of the engine's leaderboard is not
representable in the real-valued rows and is omitted (scoring never reads
it). -/

/-- One DataFrame row: column name to value. -/
abbrev Row := String → ℝ

/-- A DataFrame. -/
structure DFrame where
  cols : List String
  rows : List Row

/-- `df[c] = vals`: set a whole column. -/
def withCol (df : DFrame) (c : String) (vals : List ℝ) : DFrame :=
  { cols := if c ∈ df.cols then df.cols else df.cols ++ [c]
    rows := List.zipWith (fun r v => fun c' => if c' = c then v else r c')
      df.rows vals }

/-- `df[c]`: read a whole column. -/
def getColumn (df : DFrame) (c : String) : List ℝ :=
  df.rows.map (fun r => r c)

/-- `math.isclose(a, b)` with the default `rel_tol=1e-9`, `abs_tol=0.0`. -/
noncomputable def isclose (a b : ℝ) : Prop :=
  |a - b| ≤ max (1e-9 * max |a| |b|) 0

/-- `series.mean()`. -/
noncomputable def seriesMean (l : List ℝ) : ℝ := l.sum / l.length

/-- `series.std(ddof=0)`: population standard deviation. -/
noncomputable def seriesStd (l : List ℝ) : ℝ :=
  Real.sqrt ((l.map (fun x => (x - seriesMean l) ^ 2)).sum / l.length)

/-- `series.min()` (pandas; only reached on nonempty frames). -/
def seriesMin (l : List ℝ) : ℝ :=
  match l with
  | [] => 0
  | x :: xs => xs.foldl min x

/-- `series.max()`. -/
def seriesMax (l : List ℝ) : ℝ :=
  match l with
  | [] => 0
  | x :: xs => xs.foldl max x

/-- `DIMENSION_DIRECTIONS.get(dimension, 1)`. -/
def dimensionDirection (d : String) : ℝ :=
  if d = "health" then 1
  else if d = "cost" then -1
  else if d = "capacity" then 1
  else if d = "equity" then 1
  else 1

open scoped Classical in
/-- `_normalise`: direction-adjust, then z-score (population std; all-zero
when the std is exactly 0, which is what `math.isclose(std, 0.0)` amounts
to for a non-negative std) or min-max (all-zero on a degenerate range). -/
noncomputable def normalise (series : List ℝ) (method : String)
    (direction : ℝ) : List ℝ :=
  let values := series.map (· * direction)
  if method = "zscore" then
    let mean := seriesMean values
    let std := seriesStd values
    if isclose std 0 then List.replicate series.length 0
    else values.map (fun v => (v - mean) / std)
  else
    let min_val := seriesMin values
    let max_val := seriesMax values
    if isclose max_val min_val then List.replicate series.length 0
    else values.map (fun v => (v - min_val) / (max_val - min_val))

/-- One iteration of `score_round`'s first loop: fill a missing
`<dim>_value` column with 0.0, then write the normalised `<dim>_score`
column. -/
noncomputable def scoreDimStep (normMethod : String) (df : DFrame)
    (dw : String × ℝ) : DFrame :=
  let column := dw.1 ++ "_value"
  let df :=
    if column ∈ df.cols then df
    else withCol df column (List.replicate df.rows.length 0)
  let scores :=
    normalise (getColumn df column) normMethod (dimensionDirection dw.1)
  withCol df (dw.1 ++ "_score") scores

/-- One iteration of `score_round`'s second loop:
`df["total_score"] += df["<dim>_score"] * weight`. -/
noncomputable def totalStep (df : DFrame) (dw : String × ℝ) : DFrame :=
  withCol df "total_score"
    (List.zipWith (fun t s => t + s * dw.2)
      (getColumn df "total_score") (getColumn df (dw.1 ++ "_score")))

/-- The column-building first half of `score_round`: per-dimension value
fill-in (0.0 for a missing `<dim>_value` column), per-dimension normalised
score columns, and the weighted `total_score` column. -/
noncomputable def scoreCols (metrics : DFrame) (cfg : ScoringConfig) :
    DFrame :=
  let df := cfg.weights.foldl (scoreDimStep cfg.normalisation) metrics
  let df := withCol df "total_score" (List.replicate df.rows.length 0)
  cfg.weights.foldl totalStep df

/-- Stable descending insertion by `total_score` (what
`sort_values("total_score", ascending=False)` does on the frames scored
here). -/
noncomputable def insertDesc (r : Row) : List Row → List Row
  | [] => [r]
  | x :: xs =>
      if x "total_score" ≤ r "total_score" then r :: x :: xs
      else x :: insertDesc r xs

/-- Sort all rows, descending by `total_score`, stably. -/
noncomputable def sortRowsDesc (rows : List Row) : List Row :=
  rows.foldr insertDesc []

/-- `df["rank"] = np.arange(1, len(df) + 1)` after the sort. -/
noncomputable def rankRows (rows : List Row) : List Row :=
  (rows.zip (List.range rows.length)).map
    (fun ri => fun c => if c = "rank" then ((ri.2 : ℝ) + 1) else ri.1 c)

/-- `score_round`. -/
noncomputable def score_round (metrics : DFrame) (cfg : ScoringConfig) :
    DFrame :=
  let df := scoreCols metrics cfg
  { cols := if "rank" ∈ df.cols then df.cols else df.cols ++ ["rank"]
    rows := rankRows (sortRowsDesc df.rows) }

/-! ## src/ageing_futures/sim/engine.py -/

open scoped Classical

/-- The numpy generator `rng(seed)` hands the engine, modelled as pure
tapes: `uniform i j` is the `j`-th entry of the batch produced by the
`i`-th `gen.random(size)` call of the run (eight calls per month, numbered
in execution order), and `gamma shape scale m j` the length-of-stay draw of
month `m` for individual `j`. -/
structure Gen where
  uniform : ℕ → ℕ → ℝ
  gamma : ℝ → ℝ → ℕ → ℕ → ℝ

/-- The static inputs of one `simulate_round` call.  `mkGen` models
`utils.rng = np.random.default_rng`: a request-scoped generator that is a
pure function of the integer seed, with no global state. -/
structure Params where
  mkGen : ℤ → Gen
  cohort : Cohort
  months : ℕ
  decisions : Decisions
  shocks : List Shock
  cfg : ConfigBundle
  seed : ℤ
  policy_months_active : List (String × ℤ)

/-- `dt_months` (the configured step, as a float). -/
def dtMonths (P : Params) : ℝ := (P.cfg.transitions.time_step_months : ℝ)

/-- `base_los`: the configured mean hospital length of stay, 7.0 if the
`hospital` entry is absent. -/
def baseLos (P : Params) : ℝ :=
  match P.cfg.transitions.length_of_stay.lookup "hospital" with
  | some los => los.mean
  | none => 7.0

/-- The per-call shock modifier dict (computed once, before the loop). -/
def shockMods (P : Params) : List (String × ℝ) :=
  active_shock_modifiers P.shocks

/-- The engine's loop-carried state: the written-back cohort arrays plus
the typed working arrays, the remaining length-of-stay array, the policy
counters and the timestep results accumulated so far. -/
structure EngineState where
  cohort : Cohort
  ltc : ℕ → ℤ
  disability : ℕ → Bool
  alive : ℕ → Bool
  hospitalised : ℕ → Bool
  careHome : ℕ → Bool
  losRemaining : ℕ → ℝ
  counters : List (String × ℤ)
  results : List SimulationTimestepResult

/-- Engine state before the first month: the working copy of the caller's
cohort and the typed views (`astype(bool)` / `astype(int)`) of its arrays,
zero length-of-stay, the initial policy counters, no results. -/
noncomputable def initState (P : Params) : EngineState :=
  let c := P.cohort.copy
  { cohort := c
    ltc := fun j => truncZ (c.ltc_state j)
    disability := fun j => toB (c.disability j)
    alive := fun j => toB (c.alive j)
    hospitalised := fun j => toB (c.hospitalised j)
    careHome := fun j => toB (c.care_home j)
    losRemaining := fun _ => 0
    counters := P.decisions.map
      (fun pd => (pd.1, (P.policy_months_active.lookup pd.1).getD 0))
    results := [] }

/-- `_build_features`. -/
def buildFeatures (c : Cohort) : List (String × (ℕ → ℝ)) :=
  [ ("age", c.age),
    ("imd_quintile", c.imd_quintile),
    ("community_capacity", c.community_capacity),
    ("ltc_level", c.ltc_state),
    ("disability", c.disability),
    ("heat_exposure", c.heat_exposure),
    ("cold_exposure", c.cold_exposure),
    ("hospitalised", c.hospitalised) ]

/-- The feature dict a month starts from: `_build_features` of the current
cohort with the `features.update({...})` overrides from the typed working
arrays. -/
noncomputable def featuresAt (s : EngineState) : List (String × (ℕ → ℝ)) :=
  setk
    (setk
      (setk (buildFeatures s.cohort) "ltc_level" (fun j => ((s.ltc j : ℤ) : ℝ)))
      "disability" (fun j => boolFloat (s.disability j)))
    "hospitalised" (fun j => boolFloat (s.hospitalised j))

/-- `_probability_for_transition`: intercept shift from same-named policy
and shock modifiers, non-`capacity_`-prefixed modifier keys grafted in as
constant feature arrays when a coefficient wants them, then the log-link
hazard-to-probability conversion. -/
noncomputable def probability_for_transition (name : String)
    (features : List (String × (ℕ → ℝ))) (intercept : ℝ)
    (coefficients : List (String × ℝ)) (dt_months : ℝ)
    (policy_modifiers shock_modifiers : List (String × ℝ)) : ℕ → ℝ :=
  let intercept_shift := mget policy_modifiers name 0 + mget shock_modifiers name 0
  let combined_features :=
    (policy_modifiers ++ shock_modifiers).foldl
      (fun fs kv =>
        if kv.1.startsWith "capacity_" then fs
        else if (coefficients.lookup kv.1).isSome ∧ (fs.lookup kv.1).isNone then
          fs ++ [(kv.1, fun _ => kv.2)]
        else fs)
      features
  let lp := log_linear_predictor (intercept + intercept_shift) coefficients
    combined_features
  log_hazard_to_probability lp dt_months

/-- The active-policy mapping of a month. -/
noncomputable def activePoliciesAt (P : Params) (s : EngineState) :
    List (String × ActivePolicy) :=
  build_active_policies P.cfg.policies P.decisions s.counters

/-- The aggregated policy modifiers of a month. -/
noncomputable def policyModifiersAt (P : Params) (s : EngineState) :
    List (String × ℝ) :=
  aggregate_policy_effects ((activePoliciesAt P s).map Prod.snd)

/-- The capacity multipliers of a month
(`capacity_feedback(cohort, base_los, policy_modifiers | shock_mods)`). -/
noncomputable def capacityModifiersAt (P : Params) (s : EngineState) :
    CapacityModifiers :=
  capacity_feedback s.cohort (baseLos P)
    (mergeRight (policyModifiersAt P s) (shockMods P))

/-- `alive_mask = alive.astype(float)`. -/
def aliveMaskAt (s : EngineState) : ℕ → ℝ := fun j => boolFloat (s.alive j)

/-- The per-individual probability vector of one named transition in one
month, already multiplied by the alive mask (every engine call site does
that).  The lookup default is never reached: `simulate_round` raises
before the loop when a named transition is absent. -/
noncomputable def transProbAt (P : Params) (s : EngineState) (name : String) :
    ℕ → ℝ :=
  let td := (P.cfg.transitions.transitions.lookup name).getD ⟨0, []⟩
  fun j =>
    probability_for_transition name (featuresAt s) td.intercept
      td.coefficients (dtMonths P) (policyModifiersAt P s) (shockMods P) j *
      aliveMaskAt s j

/-- `severe_probs = np.clip(progression_probs * 0.5, 0.0, 1.0)`. -/
noncomputable def severeProbsAt (P : Params) (s : EngineState) : ℕ → ℝ :=
  fun j => clip (transProbAt P s "ltc_progression" j * 0.5) 0 1

/-- The disability-recovery probability vector after division by the
capacity-derived disability-persistence multiplier — the exact value the
engine compares against the uniform draw (no further clipping). -/
noncomputable def recoveryProbsAt (P : Params) (s : EngineState) : ℕ → ℝ :=
  fun j =>
    transProbAt P s "disability_recovery" j /
      max (capacityModifiersAt P s).disability_persistence 1e-6

/-- The mortality probability vector after the capacity multiplier and its
clip back into `[0,1]`. -/
noncomputable def mortalityProbsAt (P : Params) (s : EngineState) : ℕ → ℝ :=
  fun j =>
    clip (transProbAt P s "mortality" j *
      (capacityModifiersAt P s).mortality_multiplier) 0 1

/-- `_calculate_qalys`. -/
noncomputable def calculate_qalys (ltc : ℕ → ℤ) (disability alive : ℕ → Bool)
    (weights : List (String × ℝ)) (dt_years : ℝ) (n : ℕ) : ℝ :=
  let base := fun j =>
    if ltc j = 0 then mget weights "healthy" 0.9
    else if ltc j = 1 then mget weights "ltc_mild" 0.8
    else if ltc j = 2 then mget weights "ltc_moderate" 0.65
    else if 3 ≤ ltc j then mget weights "ltc_severe" 0.45
    else 0.5
  let disability_factor :=
    mget weights "disability" 0.5 / max (mget weights "healthy" 0.9) 1e-6
  (∑ j ∈ Finset.range n,
    base j * (if disability j then disability_factor else 1) *
      boolFloat (alive j)) * dt_years

/-- `_imd_gap`: disability prevalence in the most-deprived minus the
least-deprived IMD group among the living; 0 when nobody is alive. -/
noncomputable def imdGap (disability : ℕ → Bool) (imd : ℕ → ℝ)
    (alive : ℕ → Bool) (n : ℕ) : ℝ :=
  let aliveIdx := (List.range n).filter (fun j => alive j)
  match aliveIdx with
  | [] => 0
  | j0 :: rest =>
      let imds := (j0 :: rest).map imd
      let mn := seriesMin imds
      let mx := seriesMax imds
      let q1l := (j0 :: rest).filter (fun j => decide (imd j = mn))
      let q5l := (j0 :: rest).filter (fun j => decide (imd j = mx))
      let q1 := (q1l.map (fun j => boolFloat (disability j))).sum / q1l.length
      let q5 := (q5l.map (fun j => boolFloat (disability j))).sum / q5l.length
      q5 - q1

/-- One month of the engine loop (lines 95–287 of `engine.py`), in the
source's fixed order: LTC onset/progression/escalation, disability
onset/recovery, hospitalisation with length-of-stay bookkeeping, care-home
admission, mortality, cohort write-back, metrics, counter bump. -/
noncomputable def stepMonth (P : Params) (s : EngineState) (m : ℕ) :
    EngineState :=
  let gen := P.mkGen P.seed
  let n := s.cohort.size
  -- LTC transitions
  let onset_probs := transProbAt P s "ltc_onset"
  let progression_probs := transProbAt P s "ltc_progression"
  let severe_probs := severeProbsAt P s
  let onset_mask := fun j =>
    (s.ltc j == 0) && decide (gen.uniform (8 * m) j < onset_probs j)
  let ltc1 := fun j => if onset_mask j then 1 else s.ltc j
  let progress_mask := fun j =>
    (ltc1 j == 1) && decide (gen.uniform (8 * m + 1) j < progression_probs j)
  let ltc2 := fun j => if progress_mask j then 2 else ltc1 j
  let severe_mask := fun j =>
    decide (2 ≤ ltc2 j) && decide (gen.uniform (8 * m + 2) j < severe_probs j)
  let ltc3 := fun j => if severe_mask j then 3 else ltc2 j
  -- Disability transitions
  let disability_probs := transProbAt P s "disability_onset"
  let recovery_probs := recoveryProbsAt P s
  let disability_onset := fun j =>
    !s.disability j && decide (gen.uniform (8 * m + 3) j < disability_probs j)
  let dis1 := fun j => s.disability j || disability_onset j
  let disability_recover := fun j =>
    dis1 j && decide (gen.uniform (8 * m + 4) j < recovery_probs j)
  let dis2 := fun j => if disability_recover j then false else dis1 j
  -- Hospitalisation transitions
  let hospital_probs := transProbAt P s "hospitalisation"
  let new_admissions := fun j =>
    !s.hospitalised j && decide (gen.uniform (8 * m + 5) j < hospital_probs j)
  let hosp1 := fun j => s.hospitalised j || new_admissions j
  let los_mean := (capacityModifiersAt P s).length_of_stay
  let losdraw := fun j => max 1 (gen.gamma (los_mean / 2) 2 m j)
  let los1 := fun j => if new_admissions j then losdraw j else s.losRemaining j
  let bed_days := ∑ j ∈ Finset.range n,
    if new_admissions j then losdraw j else 0
  let los2 := fun j =>
    if hosp1 j then max 0 (los1 j - dtMonths P * 30) else los1 j
  let discharged := fun j => hosp1 j && decide (los2 j ≤ 0)
  let hosp2 := fun j => if discharged j then false else hosp1 j
  -- Care home admissions (only for disabled severe)
  let care_probs := transProbAt P s "care_home"
  let care_mask := fun j =>
    !s.careHome j && dis2 j && decide (2 ≤ ltc3 j) &&
      decide (gen.uniform (8 * m + 6) j < care_probs j)
  let care1 := fun j => s.careHome j || care_mask j
  -- Mortality
  let mortality_probs := mortalityProbsAt P s
  let death_mask := fun j =>
    s.alive j && decide (gen.uniform (8 * m + 7) j < mortality_probs j)
  let alive1 := fun j => s.alive j && !death_mask j
  let hosp3 := fun j => hosp2 j && !death_mask j
  let care2 := fun j => care1 j && !death_mask j
  let dis3 := fun j => dis2 j && !death_mask j
  -- Update cohort arrays
  let cohort' : Cohort :=
    { s.cohort with
      age := fun j => s.cohort.age j + dtMonths P / 12
      ltc_state := fun j => ((ltc3 j : ℤ) : ℝ)
      disability := fun j => boolFloat (dis3 j)
      hospitalised := fun j => boolFloat (hosp3 j)
      care_home := fun j => boolFloat (care2 j)
      alive := fun j => boolFloat (alive1 j) }
  -- Metrics
  let disability_prev :=
    (countTrue (fun j => dis3 j && alive1 j) n : ℝ) /
      ((max (countTrue alive1 n) 1 : ℕ) : ℝ)
  let qalys := calculate_qalys ltc3 dis3 alive1 P.cfg.costs.qaly_weights
    (dtMonths P / 12) n
  let policy_cost :=
    calculate_policy_cost P.cfg.policies P.decisions n /
      ((max P.months 1 : ℕ) : ℝ)
  let hospital_cost := bed_days * mget P.cfg.costs.unit_costs "hospital_bed_day" 0
  let care_cost :=
    countTrueR care2 n * 30 * mget P.cfg.costs.unit_costs "care_home_day" 0
  let total_cost := policy_cost + hospital_cost + care_cost
  let equity_gap := imdGap dis3 s.cohort.imd_quintile alive1 n
  let result : SimulationTimestepResult :=
    { month_index := m + 1
      incidence := countTrueR onset_mask n
      hospital_admissions := countTrueR new_admissions n
      bed_days := bed_days
      care_home_admissions := countTrueR care_mask n
      deaths := countTrueR death_mask n
      costs_gbp := total_cost
      qalys := qalys
      disability_prevalence := disability_prev
      equity_gap_disability := equity_gap }
  -- Policy counter bump
  let counters' := s.counters.map
    (fun kv =>
      match P.decisions.lookup kv.1 with
      | some detail => if 0 < mget detail "intensity" 0 then (kv.1, kv.2 + 1) else kv
      | none => kv)
  { cohort := cohort'
    ltc := ltc3
    disability := dis3
    alive := alive1
    hospitalised := hosp3
    careHome := care2
    losRemaining := los2
    counters := counters'
    results := s.results ++ [result] }

/-- The engine state after `k` months of the loop. -/
noncomputable def stateAfter (P : Params) : ℕ → EngineState
  | 0 => initState P
  | k + 1 => stepMonth P (stateAfter P k) k

/-- `_summarise_round`'s output dict (fixed keys). -/
structure RoundSummary where
  incidence_total : ℝ
  hospital_admissions_total : ℝ
  bed_days_total : ℝ
  care_home_admissions_total : ℝ
  deaths_total : ℝ
  costs_total : ℝ
  qalys_total : ℝ
  disability_prev_end : ℝ
  equity_gap_disability : ℝ
  health_value : ℝ
  cost_value : ℝ
  capacity_value : ℝ
  equity_value : ℝ

/-- `_summarise_round` (only called on a nonempty record list: the `.iloc[-1]`
fields read the last month's record). -/
noncomputable def summarise (rs : List SimulationTimestepResult) : RoundSummary :=
  let last_prev := ((rs.getLast?).map (·.disability_prevalence)).getD 0
  let last_gap := ((rs.getLast?).map (·.equity_gap_disability)).getD 0
  { incidence_total := (rs.map (·.incidence)).sum
    hospital_admissions_total := (rs.map (·.hospital_admissions)).sum
    bed_days_total := (rs.map (·.bed_days)).sum
    care_home_admissions_total := (rs.map (·.care_home_admissions)).sum
    deaths_total := (rs.map (·.deaths)).sum
    costs_total := (rs.map (·.costs_gbp)).sum
    qalys_total := (rs.map (·.qalys)).sum
    disability_prev_end := last_prev
    equity_gap_disability := last_gap
    health_value := (rs.map (·.qalys)).sum
    cost_value := (rs.map (·.costs_gbp)).sum
    capacity_value := -(rs.map (·.bed_days)).sum
    equity_value := -|last_gap| }

/-- `_build_leaderboard`: the one-row metrics frame (its string-valued
`team` column is omitted, see the DataFrame note), scored. -/
noncomputable def buildLeaderboard (summary : RoundSummary)
    (scoring_cfg : ScoringConfig) : DFrame :=
  score_round
    { cols := ["health_value", "cost_value", "capacity_value", "equity_value"]
      rows := [fun c =>
        if c = "health_value" then summary.health_value
        else if c = "cost_value" then summary.cost_value
        else if c = "capacity_value" then summary.capacity_value
        else if c = "equity_value" then summary.equity_value
        else 0] }
    scoring_cfg

/-- What a completed `simulate_round` call returns. -/
noncomputable def simOutputs (P : Params) :
    Cohort × List SimulationTimestepResult × RoundSummary × DFrame :=
  let s := stateAfter P P.months
  let cohort' := { s.cohort with
    months_elapsed := s.cohort.months_elapsed + (P.months : ℤ) }
  let summary := summarise s.results
  (cohort', s.results, summary, buildLeaderboard summary P.cfg.scoring)

/-- The seven named transitions, in the order the loop body first reads
them. -/
def sevenTransitionNames : List String :=
  [ "ltc_onset", "ltc_progression", "disability_onset",
    "disability_recovery", "hospitalisation", "care_home", "mortality" ]

/-- `simulate_round`.  A zero-month call raises from the empty monthly
frame inside `_summarise_round` (`df["incidence"]` on an empty DataFrame is
a `KeyError`); otherwise a missing transition definition raises a
`KeyError` in the first loop iteration, before any write-back; otherwise
the loop runs exactly `months` times and the call returns the advanced
working copy, the ordered timestep results, the summary and the one-row
scored table. -/
noncomputable def simulate_round (mkGen : ℤ → Gen) (cohort : Cohort)
    (months : ℕ) (decisions : Decisions) (shocks : List Shock)
    (cfg : ConfigBundle) (seed : ℤ)
    (policy_months_active : List (String × ℤ)) :
    Except String (Cohort × List SimulationTimestepResult × RoundSummary × DFrame) :=
  if months = 0 then .error "KeyError: incidence"
  else
    match sevenTransitionNames.find?
        (fun nm => (cfg.transitions.transitions.lookup nm).isNone) with
    | some nm => .error ("KeyError: " ++ nm)
    | none =>
        .ok (simOutputs
          ⟨mkGen, cohort, months, decisions, shocks, cfg, seed,
            policy_months_active⟩)

/-! ## Concrete fixtures (used by witnesses and counterexamples) -/

/-- A concrete generator factory: every seed yields the all-`1/2` uniform
tape and the all-`1` gamma tape. -/
noncomputable def genW : ℤ → Gen :=
  fun _ => { uniform := fun _ _ => 1 / 2, gamma := fun _ _ _ _ => 1 }

/-- A transition definition with zero intercept and no coefficients. -/
noncomputable def tdZero : TransitionDefinition := ⟨0, []⟩

/-- A complete seven-transition table of `tdZero`s. -/
noncomputable def transW : List (String × TransitionDefinition) :=
  [ ("ltc_onset", tdZero), ("ltc_progression", tdZero),
    ("disability_onset", tdZero), ("disability_recovery", tdZero),
    ("hospitalisation", tdZero), ("care_home", tdZero),
    ("mortality", tdZero) ]

/-- The same table with the `mortality` entry removed. -/
noncomputable def transMissW : List (String × TransitionDefinition) :=
  [ ("ltc_onset", tdZero), ("ltc_progression", tdZero),
    ("disability_onset", tdZero), ("disability_recovery", tdZero),
    ("hospitalisation", tdZero), ("care_home", tdZero) ]

/-- A complete configuration bundle. -/
noncomputable def cfgW : ConfigBundle :=
  { transitions := ⟨1, transW, [("hospital", ⟨7, 1, 1⟩)]⟩
    policies := ⟨[], 10000⟩
    costs := ⟨[], []⟩
    scoring := ⟨[("health", 1)], ["disability"], "minmax"⟩ }

/-- The bundle with the `mortality` transition definition missing. -/
noncomputable def cfgMissW : ConfigBundle :=
  { cfgW with transitions := ⟨1, transMissW, [("hospital", ⟨7, 1, 1⟩)]⟩ }

/-- A one-person cohort: alive, healthy, out of hospital and care. -/
noncomputable def cohortW : Cohort :=
  { size := 1
    age := fun _ => 70
    imd_quintile := fun _ => 1
    community_capacity := fun _ => 0
    heat_exposure := fun _ => 0
    cold_exposure := fun _ => 0
    hospital_beds_per_1k := fun _ => 50
    care_home_beds_per_1k := fun _ => 50
    ltc_state := fun _ => 0
    disability := fun _ => 0
    hospitalised := fun _ => 0
    care_home := fun _ => 0
    alive := fun _ => 1
    months_elapsed := 0 }

/-- The bundle of `cfgW` with a high disability-recovery hazard
(intercept 4, no coefficients). -/
noncomputable def cfgBug : ConfigBundle :=
  { cfgW with
    transitions :=
      ⟨1,
        [ ("ltc_onset", tdZero), ("ltc_progression", tdZero),
          ("disability_onset", tdZero), ("disability_recovery", ⟨4, []⟩),
          ("hospitalisation", tdZero), ("care_home", tdZero),
          ("mortality", tdZero) ],
        [("hospital", ⟨7, 1, 1⟩)]⟩ }

/-- `cohortW` with the individual disabled. -/
noncomputable def cohortBug : Cohort := { cohortW with disability := fun _ => 1 }

/-- The `simulate_round` inputs exhibiting the unclipped recovery
probability: high recovery hazard, an active `industrial_action` shock
(negative `capacity_community` modifier) and idle capacity. -/
noncomputable def paramsBug : Params :=
  ⟨genW, cohortBug, 1, [], [industrialActionShock], cfgBug, 7, []⟩

/-- A one-policy catalogue (id `"a"`). -/
noncomputable def polCfgW : PoliciesConfig :=
  ⟨[⟨"a", 10, [("ltc_onset", -0.1)], 0, 0⟩], 10000⟩

/-- Two concrete one-individual probability vectors whose sum exceeds 1. -/
def psW : List (ℕ → ℚ) := [fun _ => 7 / 10, fun _ => 3 / 5]

/-- A concrete two-row metrics frame with no `<dim>_value` columns. -/
noncomputable def dfW : DFrame :=
  ⟨["alpha"], [fun _ => 0, fun _ => 1]⟩

/-- The number of individuals with the `alive` flag set in a cohort. -/
noncomputable def aliveCount (c : Cohort) : ℕ :=
  ((Finset.range c.size).filter (fun j => toB (c.alive j) = true)).card

/-- A complete one-month `simulate_round` parameter bundle. -/
noncomputable def paramsW : Params := ⟨genW, cohortW, 1, [], [], cfgW, 7, []⟩

/-- `isErr e = true` iff the call raised. -/
def isErr {α : Type} : Except String α → Bool
  | .error _ => true
  | .ok _ => false

/-! ## C1 — determinism of `simulate_round` -/

/-- C1: two `simulate_round` calls with identical cohort, months, decision
mapping, shock list, configuration bundle and integer seed produce
identical outputs: the same advanced cohort, the same ordered sequence of
per-month timestep results, the same round summary and the same scored
one-row table.  Randomness enters only through the request-scoped
generator `mkGen seed`, a pure function of the seed. -/
theorem simulate_round_deterministic (mkGen : ℤ → Gen) (c₁ c₂ : Cohort)
    (months : ℕ) (decisions : Decisions) (shocks : List Shock)
    (cfg : ConfigBundle) (seed₁ seed₂ : ℤ) (pma : List (String × ℤ))
    (hc : c₁ = c₂) (hs : seed₁ = seed₂) :
    simulate_round mkGen c₁ months decisions shocks cfg seed₁ pma =
      simulate_round mkGen c₂ months decisions shocks cfg seed₂ pma := by
  rw [hc, hs]

/-- C1 witness: the determinism theorem applied at a concrete cohort,
bundle and seed. -/
theorem simulate_round_deterministic_witness :
    simulate_round genW cohortW 1 [] [] cfgW 7 [] =
      simulate_round genW cohortW 1 [] [] cfgW 7 [] :=
  simulate_round_deterministic genW cohortW cohortW 1 [] [] cfgW 7 7 []
    rfl rfl

/-! ## C3 — capacity feedback multipliers -/

/-- C3 counterexample: with idle hospital capacity (pressure 0) and an
external `capacity_hospital` modifier of `1/2`, the claim predicts a
mortality multiplier of `(1 + 0.2×0) × (1 + 1/2) = 3/2`, but
`capacity_feedback` returns `1`: the mortality multiplier is not scaled by
any externally supplied capacity modifier. -/
theorem capacity_feedback_mortality_unscaled :
    (capacity_feedback cohortW 7 [("capacity_hospital", (1 : ℝ) / 2)]).mortality_multiplier ≠
      (1 + hospitalPressure cohortW * 0.2) *
        (1 + mget [("capacity_hospital", (1 : ℝ) / 2)] "capacity_hospital" 0) := by
  have hocc : hospitalOccupancy cohortW = 0 := by
    have hcount : countTrue (fun j => toB (cohortW.hospitalised j)) cohortW.size = 0 := by
      simp [countTrue, cohortW, toB]
    unfold hospitalOccupancy boolMean
    rw [hcount]
    norm_num
  have hp : hospitalPressure cohortW = 0 := by
    simp [hospitalPressure, hocc]
  simp only [capacity_feedback, hp, mget, List.lookup]
  norm_num

/-- C3 (amended): `capacity_feedback` derives the pressures as
`max(0, occupancy − 1)` and the multipliers as `1 + 0.3×hp`, `1 + 0.2×hp`
and `1 + 0.15×cp`, but only the length-of-stay multiplier is further
scaled by the external `capacity_hospital` modifier and only the
disability-persistence multiplier by the external `capacity_community`
modifier; the mortality multiplier is returned without external scaling.
Pressure is zero until utilisation exceeds capacity. -/
theorem capacity_feedback_spec (c : Cohort) (base : ℝ)
    (mods : List (String × ℝ)) :
    (capacity_feedback c base mods).length_of_stay =
      base * ((1 + hospitalPressure c * 0.3) *
        (1 + mget mods "capacity_hospital" 0)) ∧
    (capacity_feedback c base mods).mortality_multiplier =
      1 + hospitalPressure c * 0.2 ∧
    (capacity_feedback c base mods).disability_persistence =
      (1 + carePressure c * 0.15) * (1 + mget mods "capacity_community" 0) ∧
    (hospitalPressure c = 0 ∨
      hospitalPressure c = hospitalOccupancy c - 1) ∧
    0 ≤ hospitalPressure c ∧
    (carePressure c = 0 ∨ carePressure c = careOccupancy c - 1) ∧
    0 ≤ carePressure c := by
  refine ⟨rfl, rfl, rfl, ?_, le_max_left _ _, ?_, le_max_left _ _⟩
  · rcases max_choice 0 (hospitalOccupancy c - 1) with h | h
    · exact Or.inl h
    · exact Or.inr h
  · rcases max_choice 0 (careOccupancy c - 1) with h | h
    · exact Or.inl h
    · exact Or.inr h

/-! ## C4 — decision entries with absent policy ids -/

theorem lookup_map_replace {α : Type} (m : List (String × α)) (k pid : String)
    (v : α) (h : k ≠ pid) :
    ((m.map (fun kv => if kv.1 = k then (k, v) else kv)).lookup pid) =
      m.lookup pid := by
  induction m with
  | nil => rfl
  | cons kv t ih =>
      obtain ⟨k1, v1⟩ := kv
      simp only [List.map_cons]
      by_cases hk : k1 = k
      · subst hk
        rw [if_pos rfl]
        have hb : (pid == k1) = false := beq_eq_false_iff_ne.mpr (Ne.symm h)
        simp [List.lookup, hb, ih]
      · rw [if_neg hk]
        simp only [List.lookup]
        cases hpb : (pid == k1) <;> simp [ih]

theorem lookup_append_single {α : Type} (m : List (String × α))
    (k pid : String) (v : α) (h : k ≠ pid) :
    ((m ++ [(k, v)]).lookup pid) = m.lookup pid := by
  induction m with
  | nil =>
      have hb : (pid == k) = false := beq_eq_false_iff_ne.mpr (Ne.symm h)
      simp [List.lookup, hb]
  | cons kv t ih =>
      obtain ⟨k1, v1⟩ := kv
      simp only [List.cons_append, List.lookup]
      cases hpb : (pid == k1) <;> simp [ih]

theorem lookup_setk_ne {α : Type} (m : List (String × α)) (k pid : String)
    (v : α) (h : k ≠ pid) :
    (setk m k v).lookup pid = m.lookup pid := by
  unfold setk
  by_cases hs : (m.lookup k).isSome
  · rw [if_pos hs]; exact lookup_map_replace m k pid v h
  · rw [if_neg hs]; exact lookup_append_single m k pid v h

theorem buildActive_foldl_lookup_none (policies_cfg : PoliciesConfig)
    (cnt : List (String × ℤ)) (pid : String)
    (habs : policyById policies_cfg.policies pid = none) :
    ∀ (decisions : Decisions) (acc : List (String × ActivePolicy)),
      acc.lookup pid = none →
      (decisions.foldl (buildActiveStep policies_cfg cnt) acc).lookup pid =
        none := by
  intro decisions
  induction decisions with
  | nil => intro acc h; exact h
  | cons pd rest ih =>
      intro acc h
      rw [List.foldl_cons]
      cases hp : policyById policies_cfg.policies pd.1 with
      | none =>
          have : buildActiveStep policies_cfg cnt acc pd = acc := by
            unfold buildActiveStep; rw [hp]
          rw [this]; exact ih acc h
      | some policy =>
          have hne : pd.1 ≠ pid := by
            intro he; rw [he, habs] at hp; cases hp
          have : (buildActiveStep policies_cfg cnt acc pd).lookup pid = none := by
            unfold buildActiveStep; rw [hp]
            simpa [lookup_setk_ne _ _ _ _ hne] using h
          exact ih _ this

/-- C4 counterexample: a decision mapping that references the policy id
`zzz`, absent from the one-policy catalogue, is processed without any
error: `build_active_policies` returns the empty active mapping and
`calculate_policy_cost` prices the decision set at 0 — the absent id is
silently ignored, not raised as a fatal configuration error. -/
theorem absent_policy_id_no_error :
    build_active_policies polCfgW [("zzz", [("intensity", 1)])] [] = [] ∧
      calculate_policy_cost polCfgW [("zzz", [("intensity", 1)])] 100 = 0 := by
  constructor
  · simp [build_active_policies, buildActiveStep, policyById, polCfgW]
  · simp [calculate_policy_cost, policyById, polCfgW]

/-- C4 (amended): a decision entry whose policy id is absent from the
policy catalogue is silently skipped rather than raising: it never appears
in the active-policy mapping built by `build_active_policies`, and
`calculate_policy_cost` charges nothing for it. -/
theorem absent_policy_id_skipped (policies_cfg : PoliciesConfig)
    (decisions : Decisions) (cnt : List (String × ℤ)) (pid : String)
    (detail : DecisionDetail) (n : ℕ)
    (habs : policyById policies_cfg.policies pid = none) :
    (build_active_policies policies_cfg decisions cnt).lookup pid = none ∧
      calculate_policy_cost policies_cfg ((pid, detail) :: decisions) n =
        calculate_policy_cost policies_cfg decisions n := by
  constructor
  · exact buildActive_foldl_lookup_none policies_cfg cnt pid habs decisions [] rfl
  · unfold calculate_policy_cost
    rw [List.foldl_cons, habs]

/-- C4 witness: the amended claim at the concrete catalogue and the absent
id `zzz`. -/
theorem absent_policy_id_skipped_witness :
    (build_active_policies polCfgW [("zzz", [("intensity", (1 : ℝ))])] []).lookup "zzz" =
        none ∧
      calculate_policy_cost polCfgW [("zzz", [("intensity", (1 : ℝ))])] 100 =
        calculate_policy_cost polCfgW [] 100 :=
  absent_policy_id_skipped polCfgW [] [] "zzz" [("intensity", 1)] 100
    (by simp [policyById, polCfgW])

/-! ## C5 — competing-risk adjustment -/

theorem crTotal_eq_sum (ps : List (ℕ → ℚ)) (j : ℕ) :
    crTotal ps j = (ps.map (fun a => a j)).sum := by
  unfold crTotal
  suffices h : ∀ t : ℕ → ℚ,
      (ps.foldl (fun t a => fun j => t j + a j) t) j =
        t j + (ps.map (fun a => a j)).sum by
    simpa using h (fun _ => 0)
  induction ps with
  | nil => intro t; simp
  | cons a rest ih =>
      intro t
      rw [List.foldl_cons, ih]
      simp [add_assoc]

theorem foldl_max_ge_init (g : ℕ → ℚ) (l : List ℕ) (b : ℚ) :
    b ≤ l.foldl (fun m i => max m (g i)) b := by
  induction l generalizing b with
  | nil => exact le_refl b
  | cons x t ih => exact le_trans (le_max_left b (g x)) (ih (max b (g x)))

theorem crExcess_le_max (n : ℕ) (ps : List (ℕ → ℚ)) (j : ℕ) (hj : j < n) :
    crExcess ps j ≤ crMaxExcess n ps := by
  unfold crMaxExcess
  have key : ∀ (l : List ℕ) (a : ℚ), j ∈ l →
      crExcess ps j ≤ l.foldl (fun m i => max m (crExcess ps i)) a := by
    intro l
    induction l with
    | nil => intro a h; cases h
    | cons x t ih =>
        intro a h
        rcases List.mem_cons.mp h with he | ht
        · subst he
          exact le_trans (le_max_right a (crExcess ps j))
            (foldl_max_ge_init (crExcess ps) t (max a (crExcess ps j)))
        · exact ih (max a (crExcess ps x)) ht
  exact key (List.range n) 0 (List.mem_range.mpr hj)

/-- C5: for same-length probability vectors (entries in `[0,1]`), the
competing-risk adjustment returns its input unchanged whenever the largest
per-individual excess over 1 is within the `1e-8` tolerance, and in every
case the element-wise sum of the returned vectors is at most `1 + 1e-8`
for every individual (in the shrink branch each vector is scaled by its
share of the excess). -/
theorem ensure_competing_risk_spec (n : ℕ) (ps : List (ℕ → ℚ)) (j : ℕ)
    (hp : ∀ p ∈ ps, ∀ i, i < n → 0 ≤ p i ∧ p i ≤ 1) (hj : j < n) :
    (ensure_competing_risk n ps = ps ∨
        1 / 100000000 < crMaxExcess n ps) ∧
      crTotal (ensure_competing_risk n ps) j ≤ 1 + 1 / 100000000 := by
  by_cases hle : crMaxExcess n ps ≤ 1 / 100000000
  · have heq : ensure_competing_risk n ps = ps := by
      unfold ensure_competing_risk; rw [if_pos hle]
    refine ⟨Or.inl heq, ?_⟩
    rw [heq]
    have h1 : crExcess ps j ≤ crMaxExcess n ps := crExcess_le_max n ps j hj
    have h2 : crTotal ps j - 1 ≤ crExcess ps j :=
      le_max_left (crTotal ps j - 1) 0
    linarith
  · refine ⟨Or.inr (lt_of_not_le hle), ?_⟩
    have heq : ensure_competing_risk n ps =
        ps.map (fun arr => fun i =>
          clipQ (arr i - crExcess ps i *
            (arr i / (crTotal ps i + 1 / 1000000000000))) 0 1) := by
      unfold ensure_competing_risk; rw [if_neg hle]
    rw [heq, crTotal_eq_sum, List.map_map]
    by_cases htj : crTotal ps j ≤ 1
    · have he0 : crExcess ps j = 0 := by
        unfold crExcess; exact max_eq_right (by linarith)
      have hcong : ps.map ((fun a => a j) ∘ (fun arr => fun i =>
          clipQ (arr i - crExcess ps i *
            (arr i / (crTotal ps i + 1 / 1000000000000))) 0 1)) =
          ps.map (fun a => a j) := by
        apply List.map_congr_left
        intro p hpm
        obtain ⟨h0, h1⟩ := hp p hpm j hj
        simp only [Function.comp, he0, zero_mul, sub_zero, clipQ]
        rw [max_eq_left h0, min_eq_left h1]
      rw [hcong, ← crTotal_eq_sum]
      linarith
    · push_neg at htj
      have hconst : ps.map ((fun a => a j) ∘ (fun arr => fun i =>
          clipQ (arr i - crExcess ps i *
            (arr i / (crTotal ps i + 1 / 1000000000000))) 0 1)) =
          ps.map (fun a =>
            a j * ((1 + 1 / 1000000000000) /
              (crTotal ps j + 1 / 1000000000000))) := by
        apply List.map_congr_left
        intro p hpm
        obtain ⟨h0, h1⟩ := hp p hpm j hj
        have he : crExcess ps j = crTotal ps j - 1 := by
          unfold crExcess; exact max_eq_left (by linarith)
        have hden : (0 : ℚ) < crTotal ps j + 1 / 1000000000000 := by linarith
        have hval : p j - crExcess ps j *
            (p j / (crTotal ps j + 1 / 1000000000000)) =
            p j * ((1 + 1 / 1000000000000) /
              (crTotal ps j + 1 / 1000000000000)) := by
          rw [he]
          field_simp
          ring
        simp only [Function.comp, hval, clipQ]
        have hfac0 : (0 : ℚ) ≤ (1 + 1 / 1000000000000) /
            (crTotal ps j + 1 / 1000000000000) := by positivity
        have hfac1 : (1 + 1 / 1000000000000) /
            (crTotal ps j + 1 / 1000000000000) ≤ 1 := by
          rw [div_le_one hden]; linarith
        have hv0 : (0 : ℚ) ≤ p j * ((1 + 1 / 1000000000000) /
            (crTotal ps j + 1 / 1000000000000)) := mul_nonneg h0 hfac0
        have hv1 : p j * ((1 + 1 / 1000000000000) /
            (crTotal ps j + 1 / 1000000000000)) ≤ 1 := by
          calc p j * ((1 + 1 / 1000000000000) /
                (crTotal ps j + 1 / 1000000000000)) ≤
              p j * 1 := by
                exact mul_le_mul_of_nonneg_left hfac1 h0
            _ ≤ 1 := by linarith
        rw [max_eq_left hv0, min_eq_left hv1]
      rw [hconst, List.sum_map_mul_right, ← crTotal_eq_sum]
      have hden : (0 : ℚ) < crTotal ps j + 1 / 1000000000000 := by linarith
      have key : crTotal ps j * ((1 + 1 / 1000000000000) /
          (crTotal ps j + 1 / 1000000000000)) ≤ 1 + 1 / 1000000000000 := by
        rw [← mul_div_assoc, div_le_iff₀ hden]
        nlinarith
      have heps : (1 : ℚ) + 1 / 1000000000000 ≤ 1 + 1 / 100000000 := by
        norm_num
      linarith

/-- C5 witness: the theorem at two one-individual vectors summing to 1.3
(the shrink branch). -/
theorem ensure_competing_risk_spec_witness :
    (ensure_competing_risk 1 psW = psW ∨
        1 / 100000000 < crMaxExcess 1 psW) ∧
      crTotal (ensure_competing_risk 1 psW) 0 ≤ 1 + 1 / 100000000 :=
  ensure_competing_risk_spec 1 psW 0
    (by
      intro p hpm i hi
      rcases List.mem_cons.mp hpm with h | h
      · subst h; norm_num
      · rcases List.mem_cons.mp h with h2 | h2
        · subst h2; norm_num
        · cases h2)
    (by decide)

/-! ## C6 — the alive count never increases -/

theorem band_le_left (x y : Bool) : (x && y) ≤ x := by
  cases x <;> simp

theorem bool_le_true {x y : Bool} (h : x ≤ y) (hx : x = true) : y = true := by
  subst hx
  cases y
  · exact absurd h (by decide)
  · rfl

theorem stepMonth_alive_le (P : Params) (s : EngineState) (m : ℕ) (j : ℕ) :
    (stepMonth P s m).alive j ≤ s.alive j := by
  simp only [stepMonth]
  exact band_le_left _ _

theorem stateAfter_alive_antitone (P : Params) {k k' : ℕ} (h : k ≤ k')
    (j : ℕ) :
    (stateAfter P k').alive j ≤ (stateAfter P k).alive j := by
  induction k' with
  | zero =>
      have h0 : k = 0 := Nat.le_zero.mp h
      subst h0; exact le_refl _
  | succ n ih =>
      rcases Nat.lt_succ_iff_lt_or_eq.mp (Nat.lt_succ_of_le h) with hlt | he
      · exact le_trans (stepMonth_alive_le P (stateAfter P n) n j)
          (ih (Nat.lt_succ_iff.mp hlt))
      · subst he; exact le_refl _

theorem stateAfter_cohort_size (P : Params) (k : ℕ) :
    (stateAfter P k).cohort.size = P.cohort.size := by
  induction k with
  | zero => rfl
  | succ n ih =>
      simp only [stateAfter, stepMonth]
      exact ih

theorem stateAfter_cohort_alive (P : Params) (k : ℕ) :
    (stateAfter P (k + 1)).cohort.alive =
      fun j => boolFloat ((stateAfter P (k + 1)).alive j) := rfl

theorem toB_boolFloat (b : Bool) : toB (boolFloat b) = b := by
  cases b <;> simp [toB, boolFloat]

/-- C6: for every argument combination, when `simulate_round` returns, the
per-individual alive flag is pointwise antitone along the month loop (an
individual dead at step `k` is dead at every later step `k'`, and nobody
alive at `k'` was dead at `k`), and the number of alive individuals in the
returned cohort is at most the number alive in the input cohort. -/
theorem simulate_round_alive_nonincreasing (mkGen : ℤ → Gen)
    (cohort : Cohort) (months : ℕ) (decisions : Decisions)
    (shocks : List Shock) (cfg : ConfigBundle) (seed : ℤ)
    (pma : List (String × ℤ))
    (out : Cohort × List SimulationTimestepResult × RoundSummary × DFrame)
    (h : simulate_round mkGen cohort months decisions shocks cfg seed pma =
      .ok out)
    (k k' : ℕ) (hk : k ≤ k') (j : ℕ) :
    (stateAfter ⟨mkGen, cohort, months, decisions, shocks, cfg, seed, pma⟩
        k').alive j ≤
      (stateAfter ⟨mkGen, cohort, months, decisions, shocks, cfg, seed, pma⟩
        k).alive j ∧
      aliveCount out.1 ≤ aliveCount cohort := by
  refine ⟨stateAfter_alive_antitone _ hk j, ?_⟩
  unfold simulate_round at h
  by_cases hm : months = 0
  · rw [if_pos hm] at h; cases h
  · rw [if_neg hm] at h
    cases hfind : sevenTransitionNames.find?
        (fun nm => (cfg.transitions.transitions.lookup nm).isNone) with
    | some nm => rw [hfind] at h; cases h
    | none =>
        rw [hfind] at h
        have hout : simOutputs
            ⟨mkGen, cohort, months, decisions, shocks, cfg, seed, pma⟩ =
            out := by injection h
        obtain ⟨mm, rfl⟩ : ∃ mm, months = mm + 1 :=
          ⟨months - 1, (Nat.succ_pred_eq_of_pos (Nat.pos_of_ne_zero hm)).symm⟩
        rw [← hout]
        unfold aliveCount
        have hsz : (simOutputs
            ⟨mkGen, cohort, mm + 1, decisions, shocks, cfg, seed, pma⟩).1.size =
            cohort.size := by
          show (stateAfter _ (mm + 1)).cohort.size = cohort.size
          exact stateAfter_cohort_size _ (mm + 1)
        rw [hsz]
        apply Finset.card_le_card
        intro x hx
        rw [Finset.mem_filter] at hx ⊢
        refine ⟨hx.1, ?_⟩
        have hx2 := hx.2
        have halive : (simOutputs
            ⟨mkGen, cohort, mm + 1, decisions, shocks, cfg, seed, pma⟩).1.alive x =
            boolFloat ((stateAfter
              ⟨mkGen, cohort, mm + 1, decisions, shocks, cfg, seed, pma⟩
              (mm + 1)).alive x) := rfl
        rw [halive, toB_boolFloat] at hx2
        have hmono := stateAfter_alive_antitone
          (⟨mkGen, cohort, mm + 1, decisions, shocks, cfg, seed, pma⟩ : Params)
          (Nat.zero_le (mm + 1)) x
        have h0 := bool_le_true hmono hx2
        exact h0

/-- C6 witness: the theorem at the concrete one-person inputs; the
`simulate_round` hypothesis is discharged definitionally with the
completed call's own output. -/
theorem simulate_round_alive_nonincreasing_witness :
    (stateAfter ⟨genW, cohortW, 1, [], [], cfgW, 7, []⟩ 1).alive 0 ≤
      (stateAfter ⟨genW, cohortW, 1, [], [], cfgW, 7, []⟩ 0).alive 0 ∧
      aliveCount (simOutputs ⟨genW, cohortW, 1, [], [], cfgW, 7, []⟩).1 ≤
        aliveCount cohortW :=
  simulate_round_alive_nonincreasing genW cohortW 1 [] [] cfgW 7 []
    (simOutputs ⟨genW, cohortW, 1, [], [], cfgW, 7, []⟩) rfl 0 1
    (Nat.zero_le 1) 0

/-! ## C7 — long-term-condition tier is non-decreasing -/

theorem stepMonth_ltc_le_three (P : Params) (s : EngineState) (m : ℕ) (j : ℕ)
    (h : s.ltc j ≤ 3) : (stepMonth P s m).ltc j ≤ 3 := by
  simp only [stepMonth]
  split_ifs <;> omega

theorem stepMonth_ltc_mono (P : Params) (s : EngineState) (m : ℕ) (j : ℕ)
    (h : s.ltc j ≤ 3) : s.ltc j ≤ (stepMonth P s m).ltc j := by
  simp only [stepMonth]
  split_ifs with h1 h2 h3 <;>
    simp_all [Bool.and_eq_true, decide_eq_true_eq, beq_iff_eq]

theorem stateAfter_ltc_le_three (P : Params)
    (hdom : ∀ i, truncZ (P.cohort.ltc_state i) ≤ 3) (k j : ℕ) :
    (stateAfter P k).ltc j ≤ 3 := by
  induction k with
  | zero => exact hdom j
  | succ n ih => exact stepMonth_ltc_le_three P (stateAfter P n) n j ih

/-- C7: when the input cohort's long-term-condition column holds tiers in
the ordinal range (at most `3` = Severe), each individual's tier is
non-decreasing at every step of the `simulate_round` month loop: the tier
after month `k+1` is at least the tier after month `k`. -/
theorem ltc_tier_monotone (P : Params)
    (hdom : ∀ i, truncZ (P.cohort.ltc_state i) ≤ 3) (k j : ℕ) :
    (stateAfter P k).ltc j ≤ (stateAfter P (k + 1)).ltc j :=
  stepMonth_ltc_mono P (stateAfter P k) k j (stateAfter_ltc_le_three P hdom k j)

/-- C7 witness: the first month of the concrete one-person run. -/
theorem ltc_tier_monotone_witness :
    (stateAfter paramsW 0).ltc 0 ≤ (stateAfter paramsW 1).ltc 0 :=
  ltc_tier_monotone paramsW
    (by intro i; simp [paramsW, cohortW, truncZ]) 0 0

/-! ## C8 — a missing transition definition is fatal and mutation-free -/

/-- C8: if any of the seven named transition definitions is absent from
the configuration bundle, `simulate_round` returns an error for every
argument combination (for a positive month count the `KeyError` fires at
the first transition lookup of the loop; a zero-month call raises on the
empty summary frame before the lookups), and the caller's cohort is
untouched: the engine works on `Cohort.copy`, whose arrays are fresh
copies, so the caller-visible snapshot is exactly the input cohort. -/
theorem missing_transition_raises (mkGen : ℤ → Gen) (cohort : Cohort)
    (months : ℕ) (decisions : Decisions) (shocks : List Shock)
    (cfg : ConfigBundle) (seed : ℤ) (pma : List (String × ℤ)) (nm : String)
    (hmem : nm ∈ sevenTransitionNames)
    (hmiss : cfg.transitions.transitions.lookup nm = none) :
    isErr (simulate_round mkGen cohort months decisions shocks cfg seed pma) =
        true ∧
      Cohort.copy cohort = cohort := by
  refine ⟨?_, rfl⟩
  unfold simulate_round
  by_cases hm : months = 0
  · rw [if_pos hm]; rfl
  · rw [if_neg hm]
    have hsome : (sevenTransitionNames.find?
        (fun nm => (cfg.transitions.transitions.lookup nm).isNone)).isSome := by
      rw [List.find?_isSome]
      exact ⟨nm, hmem, by simp [hmiss]⟩
    obtain ⟨nm', hnm'⟩ := Option.isSome_iff_exists.mp hsome
    rw [hnm']
    rfl

/-- C8 witness: the bundle with the `mortality` transition definition
removed makes the concrete call raise. -/
theorem missing_transition_raises_witness :
    isErr (simulate_round genW cohortW 1 [] [] cfgMissW 7 []) = true ∧
      Cohort.copy cohortW = cohortW :=
  missing_transition_raises genW cohortW 1 [] [] cfgMissW 7 [] "mortality"
    (by decide) rfl

/-! ## C2 — the compared disability-recovery probability can exceed 1 -/

theorem carePressure_cohortBug : carePressure cohortBug = 0 := by
  have hcount : countTrue (fun j => toB (cohortBug.care_home j))
      cohortBug.size = 0 := by
    simp [countTrue, cohortBug, cohortW, toB]
  unfold carePressure careOccupancy boolMean floatMean
  rw [hcount]
  simp [cohortBug, cohortW]

theorem shockMods_paramsBug_community :
    mget (mergeRight (policyModifiersAt paramsBug (initState paramsBug))
      (shockMods paramsBug)) "capacity_community" 0 = -(0.15 : ℝ) := by
  have hpol : policyModifiersAt paramsBug (initState paramsBug) = [] := rfl
  rw [hpol]
  simp [mergeRight, shockMods, paramsBug, active_shock_modifiers,
    industrialActionShock, setk, mget, List.lookup]

theorem disability_persistence_paramsBug :
    (capacityModifiersAt paramsBug (initState paramsBug)).disability_persistence =
      17 / 20 := by
  unfold capacityModifiersAt capacity_feedback
  have hc : (initState paramsBug).cohort = cohortBug := rfl
  simp only [hc, carePressure_cohortBug, shockMods_paramsBug_community]
  norm_num

theorem recovery_raw_paramsBug :
    transProbAt paramsBug (initState paramsBug) "disability_recovery" 0 =
      clip (1 - Real.exp (-(max (Real.exp 4) 0) * (1 / 12))) 0 1 := by
  have hlk : (paramsBug.cfg.transitions.transitions.lookup
      "disability_recovery").getD ⟨0, []⟩ = ⟨(4 : ℝ), []⟩ := rfl
  have hsget : mget (shockMods paramsBug) "disability_recovery" 0 = 0 := by
    simp [shockMods, paramsBug, active_shock_modifiers, industrialActionShock,
      setk, mget, List.lookup]
  have hpget : mget (policyModifiersAt paramsBug (initState paramsBug))
      "disability_recovery" 0 = 0 := rfl
  have halive : aliveMaskAt (initState paramsBug) 0 = 1 := by
    show boolFloat (toB (cohortBug.alive 0)) = 1
    simp [cohortBug, cohortW, toB, boolFloat]
  have hdt : dtMonths paramsBug = 1 := by
    simp [dtMonths, paramsBug, cfgBug]
  unfold transProbAt
  rw [hlk, halive, mul_one]
  unfold probability_for_transition log_hazard_to_probability
    hazard_to_probability log_linear_predictor
  rw [hsget, hpget, hdt]
  norm_num

/-- C2 (code bug): at a concrete reachable input — a one-person cohort
that is alive and disabled, idle care capacity, an active
`industrial_action` shock whose `capacity_community = −0.15` drives the
disability-persistence multiplier to `0.85 < 1`, and a
`disability_recovery` hazard with intercept 4 — the probability that
`simulate_round`'s first month compares against the uniform draw for
disability recovery (`recovery_probs` after the division by the
persistence multiplier, exactly the value `stepMonth` uses) exceeds 1:
the engine never re-clips it, contradicting the claim that every compared
probability lies in `[0,1]`. -/
theorem recovery_probability_exceeds_one :
    1 < recoveryProbsAt paramsBug (stateAfter paramsBug 0) 0 := by
  show 1 < recoveryProbsAt paramsBug (initState paramsBug) 0
  unfold recoveryProbsAt
  rw [recovery_raw_paramsBug, disability_persistence_paramsBug]
  have hmax : max ((17 : ℝ) / 20) 1e-6 = 17 / 20 := by
    rw [max_eq_left]; norm_num
  rw [hmax]
  have hexp_pos : (0 : ℝ) < Real.exp 4 := Real.exp_pos 4
  have hmax4 : max (Real.exp 4) 0 = Real.exp 4 :=
    max_eq_left (le_of_lt hexp_pos)
  rw [hmax4]
  have hexp4 : (53 : ℝ) < Real.exp 4 := by
    have h4 : (4 : ℝ) = ((4 : ℕ) : ℝ) * 1 := by norm_num
    rw [h4, Real.exp_nat_mul]
    have hone := Real.exp_one_gt_d9
    have hpow : (2.7182818283 : ℝ) ^ 4 ≤ (Real.exp 1) ^ 4 :=
      pow_le_pow_left₀ (by norm_num) (le_of_lt hone) 4
    have hval : (53 : ℝ) < (2.7182818283 : ℝ) ^ 4 := by norm_num
    linarith
  have harg : (4 : ℝ) < Real.exp 4 * (1 / 12) := by nlinarith
  have hE : Real.exp ((-Real.exp 4 * (1 / 12))) < 0.15 := by
    have h1 : Real.exp ((-Real.exp 4 * (1 / 12))) < Real.exp (-4) :=
      Real.exp_lt_exp.mpr (by linarith)
    have h2 : Real.exp (-(4 : ℝ)) = (Real.exp 4)⁻¹ := Real.exp_neg 4
    have h3 : (Real.exp 4)⁻¹ < (53 : ℝ)⁻¹ := by
      apply inv_strictAnti₀ (by norm_num) hexp4
    have h4 : ((53 : ℝ))⁻¹ < 0.15 := by norm_num
    linarith
  have hE_pos : 0 < Real.exp ((-Real.exp 4 * (1 / 12))) := Real.exp_pos _
  have hv85 : (0.85 : ℝ) < 1 - Real.exp ((-Real.exp 4 * (1 / 12))) := by
    linarith
  have hv1 : 1 - Real.exp ((-Real.exp 4 * (1 / 12))) ≤ 1 := by linarith
  have hclip : clip (1 - Real.exp ((-Real.exp 4 * (1 / 12)))) 0 1 =
      1 - Real.exp ((-Real.exp 4 * (1 / 12))) := by
    unfold clip
    rw [max_eq_left (by linarith), min_eq_left hv1]
  rw [hclip]
  rw [one_lt_div (by norm_num : (0 : ℝ) < 17 / 20)]
  linarith

/-! ## DataFrame lemmas for the scoring claims -/

theorem string_append_data (s t : String) : (s ++ t).data = s.data ++ t.data :=
  rfl

theorem value_ne_score (d d' : String) : d ++ "_value" ≠ d' ++ "_score" := by
  intro h
  have h1 := congrArg String.data h
  rw [string_append_data, string_append_data] at h1
  have h2 := (List.append_inj' h1 (by decide)).2
  exact absurd h2 (by decide)

theorem value_inj {d d' : String} (h : d ++ "_value" = d' ++ "_value") :
    d = d' := by
  have h1 := congrArg String.data h
  rw [string_append_data, string_append_data] at h1
  have h2 := (List.append_inj' h1 rfl).1
  exact congrArg String.mk h2

theorem value_ne_rank (d : String) : d ++ "_value" ≠ "rank" := by
  intro h
  have h1 := congrArg (fun s : String => s.data.length) h
  simp only [string_append_data, List.length_append, List.length_cons,
    List.length_nil] at h1
  omega

theorem value_ne_total (d : String) : d ++ "_value" ≠ "total_score" := by
  have ht : ("total_score" : String) = "total" ++ "_score" := rfl
  rw [ht]
  exact value_ne_score d "total"

theorem map_zipWith_same (c : String) :
    ∀ (rows : List Row) (vals : List ℝ), vals.length = rows.length →
      (List.zipWith (fun r v => fun c' => if c' = c then v else r c')
        rows vals).map (fun r => r c) = vals := by
  intro rows
  induction rows with
  | nil => intro vals h; simp at h; simp [h]
  | cons r t ih =>
      intro vals h
      cases vals with
      | nil => simp at h
      | cons v vs =>
          simp only [List.zipWith_cons_cons, List.map_cons, if_true,
            eq_self_iff_true]
          rw [ih vs (by simpa using h)]

theorem map_zipWith_ne (c c' : String) (hne : c' ≠ c) :
    ∀ (rows : List Row) (vals : List ℝ),
      (List.zipWith (fun r v => fun c0 => if c0 = c then v else r c0)
        rows vals).map (fun r => r c') =
        (rows.take vals.length).map (fun r => r c') := by
  intro rows
  induction rows with
  | nil => intro vals; simp
  | cons r t ih =>
      intro vals
      cases vals with
      | nil => simp
      | cons v vs =>
          simp only [List.zipWith_cons_cons, List.map_cons, if_neg hne,
            List.length_cons, List.take_succ_cons]
          rw [ih vs]

theorem getColumn_withCol_same (df : DFrame) (c : String) (vals : List ℝ)
    (h : vals.length = df.rows.length) :
    getColumn (withCol df c vals) c = vals := by
  unfold getColumn withCol
  exact map_zipWith_same c df.rows vals h

theorem getColumn_withCol_ne (df : DFrame) (c c' : String) (vals : List ℝ)
    (hne : c' ≠ c) (h : vals.length = df.rows.length) :
    getColumn (withCol df c vals) c' = getColumn df c' := by
  unfold getColumn withCol
  rw [map_zipWith_ne c c' hne df.rows vals, h, List.take_length]

theorem withCol_rows_length (df : DFrame) (c : String) (vals : List ℝ)
    (h : vals.length = df.rows.length) :
    (withCol df c vals).rows.length = df.rows.length := by
  simp [withCol, h]

theorem withCol_cols_mem (df : DFrame) (c x : String) (vals : List ℝ)
    (hx : x ∈ df.cols) : x ∈ (withCol df c vals).cols := by
  unfold withCol
  split_ifs <;> simp [hx]

theorem withCol_cols_self (df : DFrame) (c : String) (vals : List ℝ) :
    c ∈ (withCol df c vals).cols := by
  unfold withCol
  split_ifs with h <;> simp [h]

theorem withCol_cols_of_mem (df : DFrame) (c x : String) (vals : List ℝ)
    (hx : x ∈ (withCol df c vals).cols) : x ∈ df.cols ∨ x = c := by
  unfold withCol at hx
  split_ifs at hx with h
  · exact Or.inl hx
  · rcases List.mem_append.mp hx with h1 | h1
    · exact Or.inl h1
    · simp at h1; exact Or.inr h1

theorem getColumn_length (df : DFrame) (c : String) :
    (getColumn df c).length = df.rows.length := by
  simp [getColumn]

theorem normalise_length (s : List ℝ) (m : String) (d : ℝ) :
    (normalise s m d).length = s.length := by
  simp only [normalise]
  split_ifs <;> simp

theorem insertDesc_length (r : Row) (l : List Row) :
    (insertDesc r l).length = l.length + 1 := by
  induction l with
  | nil => rfl
  | cons x xs ih =>
      unfold insertDesc
      split_ifs <;> simp [ih]

theorem mem_insertDesc {x r : Row} {l : List Row} (h : x ∈ insertDesc r l) :
    x = r ∨ x ∈ l := by
  induction l with
  | nil => simpa [insertDesc] using h
  | cons y ys ih =>
      unfold insertDesc at h
      split_ifs at h with hc
      · exact List.mem_cons.mp h
      · rcases List.mem_cons.mp h with h1 | h1
        · exact Or.inr (List.mem_cons.mpr (Or.inl h1))
        · rcases ih h1 with h2 | h2
          · exact Or.inl h2
          · exact Or.inr (List.mem_cons.mpr (Or.inr h2))

theorem sortRowsDesc_length (l : List Row) :
    (sortRowsDesc l).length = l.length := by
  unfold sortRowsDesc
  induction l with
  | nil => rfl
  | cons x xs ih => simp [List.foldr_cons, insertDesc_length, ih]

theorem mem_sortRowsDesc {x : Row} {l : List Row} (h : x ∈ sortRowsDesc l) :
    x ∈ l := by
  induction l with
  | nil => simp [sortRowsDesc] at h
  | cons y ys ih =>
      unfold sortRowsDesc at h
      simp only [List.foldr_cons] at h
      rcases mem_insertDesc h with h1 | h1
      · simp [h1]
      · exact List.mem_cons.mpr (Or.inr (ih h1))

theorem zip_range_map {α : Type} (f : ℕ → α) :
    ∀ (l : List Row) (r : List ℕ), l.length = r.length →
      (l.zip r).map (fun p => f p.2) = r.map f := by
  intro l
  induction l with
  | nil =>
      intro r h
      have : r = [] := by
        cases r with
        | nil => rfl
        | cons a as => simp at h
      simp [this]
  | cons x xs ih =>
      intro r h
      cases r with
      | nil => simp at h
      | cons a as =>
          simp only [List.zip_cons_cons, List.map_cons]
          rw [ih as (by simpa using h)]

theorem rankRows_map_rank (rows : List Row) :
    (rankRows rows).map (fun r => r "rank") =
      (List.range rows.length).map (fun i : ℕ => ((i : ℝ) + 1)) := by
  unfold rankRows
  rw [List.map_map]
  have hfun : ((fun r : Row => r "rank") ∘ fun ri : Row × ℕ =>
      fun c => if c = "rank" then ((ri.2 : ℝ) + 1) else ri.1 c) =
      fun ri : Row × ℕ => ((ri.2 : ℝ) + 1) := by
    funext ri; simp
  rw [hfun]
  exact zip_range_map (fun i : ℕ => ((i : ℝ) + 1)) rows
    (List.range rows.length) (by simp)

theorem rankRows_map_other (rows : List Row) (c : String) (hc : ¬c = "rank") :
    (rankRows rows).map (fun r => r c) = rows.map (fun r => r c) := by
  unfold rankRows
  rw [List.map_map]
  have hfun : ((fun r : Row => r c) ∘ fun ri : Row × ℕ =>
      fun c0 => if c0 = "rank" then ((ri.2 : ℝ) + 1) else ri.1 c0) =
      fun ri : Row × ℕ => ri.1 c := by
    funext ri; simp [hc]
  rw [hfun]
  have hfst := List.map_fst_zip rows (List.range rows.length) (by simp)
  calc (rows.zip (List.range rows.length)).map (fun ri => ri.1 c) =
      ((rows.zip (List.range rows.length)).map Prod.fst).map
        (fun r => r c) := by rw [List.map_map]; rfl
    _ = rows.map (fun r => r c) := by rw [hfst]

theorem rankRows_two_rank (a b : Row) :
    (rankRows [a, b]).map (fun r => r "rank") = [1, 2] := by
  rw [rankRows_map_rank]
  have h2 : List.range 2 = [0, 1] := rfl
  simp only [List.length_cons, List.length_nil, h2, List.map_cons,
    List.map_nil]
  norm_num

theorem scoreDimStep_length (nm : String) (df : DFrame) (dw : String × ℝ) :
    (scoreDimStep nm df dw).rows.length = df.rows.length := by
  simp only [scoreDimStep]
  split_ifs with h
  · apply withCol_rows_length
    rw [normalise_length, getColumn_length]
  · have hrep : (List.replicate df.rows.length (0 : ℝ)).length =
        df.rows.length := by simp
    have h0 : (withCol df (dw.1 ++ "_value")
        (List.replicate df.rows.length 0)).rows.length = df.rows.length :=
      withCol_rows_length _ _ _ hrep
    rw [withCol_rows_length, h0]
    rw [normalise_length, getColumn_length]

theorem foldl_scoreDimStep_length (nm : String) (ws : List (String × ℝ)) :
    ∀ df : DFrame,
      ((ws.foldl (scoreDimStep nm) df).rows.length = df.rows.length) := by
  induction ws with
  | nil => intro df; rfl
  | cons dw rest ih =>
      intro df
      rw [List.foldl_cons, ih, scoreDimStep_length]

theorem totalStep_length (df : DFrame) (dw : String × ℝ) :
    (totalStep df dw).rows.length = df.rows.length := by
  apply withCol_rows_length
  simp [List.length_zipWith, getColumn_length]

theorem foldl_totalStep_length (ws : List (String × ℝ)) :
    ∀ df : DFrame, ((ws.foldl totalStep df).rows.length = df.rows.length) := by
  induction ws with
  | nil => intro df; rfl
  | cons dw rest ih =>
      intro df
      rw [List.foldl_cons, ih, totalStep_length]

theorem scoreCols_length (metrics : DFrame) (cfg : ScoringConfig) :
    (scoreCols metrics cfg).rows.length = metrics.rows.length := by
  simp only [scoreCols]
  rw [foldl_totalStep_length, withCol_rows_length _ _ _ (by simp),
    foldl_scoreDimStep_length]

/-! ## C9 — two-row scoring always ranks {1, 2}, higher total first -/

/-- C9: `score_round` on any two-row table assigns the rank column exactly
`[1, 2]`, and the `total_score` column of the ranked output is the sorted
pair `[max t₀ t₁, min t₀ t₁]` of the two rows' weighted normalised totals:
the row whose total is higher receives rank 1 (on a tie the stable order
keeps the first row first, and max = min makes the statement hold
trivially). -/
theorem score_round_two_rows (cols : List String) (r0 r1 : Row)
    (cfg : ScoringConfig) :
    (score_round ⟨cols, [r0, r1]⟩ cfg).rows.map (fun r => r "rank") =
        [1, 2] ∧
      (score_round ⟨cols, [r0, r1]⟩ cfg).rows.map
          (fun r => r "total_score") =
        [max ((getColumn (scoreCols ⟨cols, [r0, r1]⟩ cfg)
                "total_score").headI)
            ((getColumn (scoreCols ⟨cols, [r0, r1]⟩ cfg)
                "total_score").getLastD 0),
          min ((getColumn (scoreCols ⟨cols, [r0, r1]⟩ cfg)
                "total_score").headI)
            ((getColumn (scoreCols ⟨cols, [r0, r1]⟩ cfg)
                "total_score").getLastD 0)] := by
  have hlen : (scoreCols ⟨cols, [r0, r1]⟩ cfg).rows.length = 2 := by
    rw [scoreCols_length]
    rfl
  obtain ⟨s0, s1, hrows⟩ := List.length_eq_two.mp hlen
  have hcol : getColumn (scoreCols ⟨cols, [r0, r1]⟩ cfg) "total_score" =
      [s0 "total_score", s1 "total_score"] := by
    unfold getColumn; rw [hrows]; rfl
  have hhead : (getColumn (scoreCols ⟨cols, [r0, r1]⟩ cfg)
      "total_score").headI = s0 "total_score" := by rw [hcol]; rfl
  have hlast : (getColumn (scoreCols ⟨cols, [r0, r1]⟩ cfg)
      "total_score").getLastD 0 = s1 "total_score" := by rw [hcol]; rfl
  have hout : (score_round ⟨cols, [r0, r1]⟩ cfg).rows =
      rankRows (sortRowsDesc [s0, s1]) := by
    simp only [score_round]
    rw [hrows]
  rw [hout, hhead, hlast]
  by_cases hc : s1 "total_score" ≤ s0 "total_score"
  · have hsort : sortRowsDesc [s0, s1] = [s0, s1] := by
      simp [sortRowsDesc, insertDesc, hc]
    rw [hsort]
    refine ⟨rankRows_two_rank s0 s1, ?_⟩
    rw [rankRows_map_other _ _ (by decide)]
    simp [max_eq_left hc, min_eq_right hc]
  · push_neg at hc
    have hsort : sortRowsDesc [s0, s1] = [s1, s0] := by
      simp [sortRowsDesc, insertDesc, not_le.mpr hc]
    rw [hsort]
    refine ⟨rankRows_two_rank s1 s0, ?_⟩
    rw [rankRows_map_other _ _ (by decide)]
    simp [max_eq_right (le_of_lt hc), min_eq_left (le_of_lt hc)]

/-! ## C10 — a missing value column is zero-filled, scoring succeeds -/

theorem scoreDimStep_cols_mem (nm : String) (df : DFrame) (dw : String × ℝ)
    (x : String) (hx : x ∈ df.cols) : x ∈ (scoreDimStep nm df dw).cols := by
  simp only [scoreDimStep]
  split_ifs with h
  · exact withCol_cols_mem _ _ _ _ hx
  · exact withCol_cols_mem _ _ _ _ (withCol_cols_mem _ _ _ _ hx)

theorem foldl_scoreDimStep_cols_mem (nm : String) (ws : List (String × ℝ)) :
    ∀ (df : DFrame) (x : String), x ∈ df.cols →
      x ∈ (ws.foldl (scoreDimStep nm) df).cols := by
  induction ws with
  | nil => intro df x hx; exact hx
  | cons dw rest ih =>
      intro df x hx
      rw [List.foldl_cons]
      exact ih _ _ (scoreDimStep_cols_mem nm df dw x hx)

theorem totalStep_cols_mem (df : DFrame) (dw : String × ℝ) (x : String)
    (hx : x ∈ df.cols) : x ∈ (totalStep df dw).cols :=
  withCol_cols_mem _ _ _ _ hx

theorem foldl_totalStep_cols_mem (ws : List (String × ℝ)) :
    ∀ (df : DFrame) (x : String), x ∈ df.cols →
      x ∈ (ws.foldl totalStep df).cols := by
  induction ws with
  | nil => intro df x hx; exact hx
  | cons dw rest ih =>
      intro df x hx
      rw [List.foldl_cons]
      exact ih _ _ (totalStep_cols_mem df dw x hx)

theorem totalStep_getColumn_ne (df : DFrame) (dw : String × ℝ) (col : String)
    (hne : col ≠ "total_score") :
    getColumn (totalStep df dw) col = getColumn df col := by
  unfold totalStep
  apply getColumn_withCol_ne _ _ _ _ hne
  simp [List.length_zipWith, getColumn_length]

theorem foldl_totalStep_getColumn_ne (ws : List (String × ℝ)) :
    ∀ (df : DFrame) (col : String), col ≠ "total_score" →
      getColumn (ws.foldl totalStep df) col = getColumn df col := by
  induction ws with
  | nil => intro df col _; rfl
  | cons dw rest ih =>
      intro df col hne
      rw [List.foldl_cons, ih _ _ hne, totalStep_getColumn_ne _ _ _ hne]

theorem scoreDimStep_preserve (nm : String) (df : DFrame) (dw : String × ℝ)
    (d0 : String) (n : ℕ)
    (hmem : (d0 ++ "_value") ∈ df.cols)
    (hval : getColumn df (d0 ++ "_value") = List.replicate n 0)
    (hlen : df.rows.length = n) :
    (d0 ++ "_value") ∈ (scoreDimStep nm df dw).cols ∧
      getColumn (scoreDimStep nm df dw) (d0 ++ "_value") =
        List.replicate n 0 ∧
      (scoreDimStep nm df dw).rows.length = n := by
  simp only [scoreDimStep]
  split_ifs with h
  · refine ⟨withCol_cols_mem _ _ _ _ hmem, ?_, ?_⟩
    · rw [getColumn_withCol_ne _ _ _ _ (value_ne_score d0 dw.1)
        (by rw [normalise_length, getColumn_length])]
      exact hval
    · rw [withCol_rows_length _ _ _
        (by rw [normalise_length, getColumn_length])]
      exact hlen
  · have hne1 : d0 ++ "_value" ≠ dw.1 ++ "_value" := by
      intro he
      have hd := value_inj he
      subst hd
      exact h hmem
    have hlen1 : (withCol df (dw.1 ++ "_value")
        (List.replicate df.rows.length 0)).rows.length = df.rows.length :=
      withCol_rows_length _ _ _ (by simp)
    refine ⟨withCol_cols_mem _ _ _ _ (withCol_cols_mem _ _ _ _ hmem), ?_, ?_⟩
    · rw [getColumn_withCol_ne _ _ _ _ (value_ne_score d0 dw.1)
        (by rw [normalise_length, getColumn_length])]
      rw [getColumn_withCol_ne _ _ _ _ hne1 (by simp)]
      exact hval
    · rw [withCol_rows_length _ _ _
        (by rw [normalise_length, getColumn_length]), hlen1]
      exact hlen

theorem foldl_scoreDimStep_preserve (nm : String) (ws : List (String × ℝ)) :
    ∀ (df : DFrame) (d0 : String) (n : ℕ),
      (d0 ++ "_value") ∈ df.cols →
      getColumn df (d0 ++ "_value") = List.replicate n 0 →
      df.rows.length = n →
      (d0 ++ "_value") ∈ (ws.foldl (scoreDimStep nm) df).cols ∧
        getColumn (ws.foldl (scoreDimStep nm) df) (d0 ++ "_value") =
          List.replicate n 0 ∧
        (ws.foldl (scoreDimStep nm) df).rows.length = n := by
  induction ws with
  | nil => intro df d0 n h1 h2 h3; exact ⟨h1, h2, h3⟩
  | cons dw rest ih =>
      intro df d0 n h1 h2 h3
      rw [List.foldl_cons]
      obtain ⟨g1, g2, g3⟩ := scoreDimStep_preserve nm df dw d0 n h1 h2 h3
      exact ih _ d0 n g1 g2 g3

theorem scoreDimStep_not_mem (nm : String) (df : DFrame) (dw : String × ℝ)
    (d0 : String) (hne : d0 ++ "_value" ≠ dw.1 ++ "_value")
    (habs : (d0 ++ "_value") ∉ df.cols) :
    (d0 ++ "_value") ∉ (scoreDimStep nm df dw).cols := by
  simp only [scoreDimStep]
  split_ifs with h
  · intro hmem
    rcases withCol_cols_of_mem _ _ _ _ hmem with h1 | h1
    · exact habs h1
    · exact value_ne_score d0 dw.1 h1
  · intro hmem
    rcases withCol_cols_of_mem _ _ _ _ hmem with h1 | h1
    · rcases withCol_cols_of_mem _ _ _ _ h1 with h2 | h2
      · exact habs h2
      · exact hne h2
    · exact value_ne_score d0 dw.1 h1

theorem foldl_scoreDimStep_fills (nm : String) (ws : List (String × ℝ)) :
    ∀ (df : DFrame) (dim : String) (n : ℕ),
      dim ∈ ws.map Prod.fst → (dim ++ "_value") ∉ df.cols →
      df.rows.length = n →
      (dim ++ "_value") ∈ (ws.foldl (scoreDimStep nm) df).cols ∧
        getColumn (ws.foldl (scoreDimStep nm) df) (dim ++ "_value") =
          List.replicate n 0 ∧
        (ws.foldl (scoreDimStep nm) df).rows.length = n ∧
        (dim ++ "_score") ∈ (ws.foldl (scoreDimStep nm) df).cols := by
  induction ws with
  | nil => intro df dim n hmem; simp at hmem
  | cons dw rest ih =>
      intro df dim n hmem habs hlen
      rw [List.foldl_cons]
      by_cases hd : dw.1 = dim
      · subst hd
        have hfill : (dw.1 ++ "_value") ∈ (scoreDimStep nm df dw).cols ∧
            getColumn (scoreDimStep nm df dw) (dw.1 ++ "_value") =
              List.replicate n 0 ∧
            (scoreDimStep nm df dw).rows.length = n ∧
            (dw.1 ++ "_score") ∈ (scoreDimStep nm df dw).cols := by
          simp only [scoreDimStep]
          rw [if_neg habs]
          have hlen1 : (withCol df (dw.1 ++ "_value")
              (List.replicate df.rows.length 0)).rows.length =
              df.rows.length := withCol_rows_length _ _ _ (by simp)
          refine ⟨?_, ?_, ?_, ?_⟩
          · exact withCol_cols_mem _ _ _ _ (withCol_cols_self _ _ _)
          · rw [getColumn_withCol_ne _ _ _ _ (value_ne_score dw.1 dw.1)
              (by rw [normalise_length, getColumn_length])]
            rw [getColumn_withCol_same _ _ _ (by simp), hlen]
          · rw [withCol_rows_length _ _ _
              (by rw [normalise_length, getColumn_length]), hlen1]
            exact hlen
          · exact withCol_cols_self _ _ _
        obtain ⟨f1, f2, f3, f4⟩ := hfill
        obtain ⟨g1, g2, g3⟩ :=
          foldl_scoreDimStep_preserve nm rest (scoreDimStep nm df dw)
            dw.1 n f1 f2 f3
        exact ⟨g1, g2, g3, foldl_scoreDimStep_cols_mem nm rest _ _ f4⟩
      · have hmem' : dim ∈ rest.map Prod.fst := by
          rcases List.mem_map.mp hmem with ⟨p, hp, hpe⟩
          rcases List.mem_cons.mp hp with h1 | h1
          · exact absurd (h1 ▸ hpe) hd
          · exact List.mem_map.mpr ⟨p, h1, hpe⟩
        have hne : dim ++ "_value" ≠ dw.1 ++ "_value" := by
          intro he
          exact hd (value_inj he).symm
        have habs' : (dim ++ "_value") ∉ (scoreDimStep nm df dw).cols :=
          scoreDimStep_not_mem nm df dw dim hne habs
        have hlen' : (scoreDimStep nm df dw).rows.length = n := by
          rw [scoreDimStep_length]; exact hlen
        exact ih _ dim n hmem' habs' hlen'

/-- C10: if a dimension named in the scoring weights has no
`<dimension>_value` column in the input frame, `score_round` does not
fail: the dimension's value column comes back all-zero (the 0.0
substitution applied to every row), the output is still fully ranked
(rank column `1..n` in sorted order) and the dimension's score column is
present in the output schema. -/
theorem score_round_missing_column (df : DFrame) (cfg : ScoringConfig)
    (dim : String) (hd : dim ∈ cfg.weights.map Prod.fst)
    (habs : (dim ++ "_value") ∉ df.cols) :
    getColumn (score_round df cfg) (dim ++ "_value") =
        List.replicate df.rows.length 0 ∧
      getColumn (score_round df cfg) "rank" =
        (List.range df.rows.length).map (fun i : ℕ => ((i : ℝ) + 1)) ∧
      (dim ++ "_score") ∈ (score_round df cfg).cols := by
  obtain ⟨h1mem, h1val, h1len, h1score⟩ :=
    foldl_scoreDimStep_fills cfg.normalisation cfg.weights df dim
      df.rows.length hd habs rfl
  -- facts about scoreCols df cfg
  have h2val : getColumn (scoreCols df cfg) (dim ++ "_value") =
      List.replicate df.rows.length 0 := by
    simp only [scoreCols]
    rw [foldl_totalStep_getColumn_ne _ _ _ (value_ne_total dim)]
    rw [getColumn_withCol_ne _ _ _ _ (value_ne_total dim) (by simp)]
    exact h1val
  have h2len : (scoreCols df cfg).rows.length = df.rows.length :=
    scoreCols_length df cfg
  have h2score : (dim ++ "_score") ∈ (scoreCols df cfg).cols := by
    simp only [scoreCols]
    exact foldl_totalStep_cols_mem _ _ _ (withCol_cols_mem _ _ _ _ h1score)
  -- through sort and rank
  have hsortlen : (sortRowsDesc (scoreCols df cfg).rows).length =
      df.rows.length := by rw [sortRowsDesc_length, h2len]
  have hrows : (score_round df cfg).rows =
      rankRows (sortRowsDesc (scoreCols df cfg).rows) := rfl
  refine ⟨?_, ?_, ?_⟩
  · unfold getColumn
    rw [hrows, rankRows_map_other _ _ (value_ne_rank dim)]
    refine List.eq_replicate_iff.mpr ⟨?_, ?_⟩
    · rw [List.length_map, hsortlen]
    · intro b hb
      rcases List.mem_map.mp hb with ⟨r, hr, rfl⟩
      have hrmem : r ∈ (scoreCols df cfg).rows := mem_sortRowsDesc hr
      have hmem2 : r (dim ++ "_value") ∈
          getColumn (scoreCols df cfg) (dim ++ "_value") :=
        List.mem_map_of_mem _ hrmem
      rw [h2val] at hmem2
      exact List.eq_of_mem_replicate hmem2
  · unfold getColumn
    rw [hrows, rankRows_map_rank, hsortlen]
  · have hcols : (score_round df cfg).cols =
        (if "rank" ∈ (scoreCols df cfg).cols then (scoreCols df cfg).cols
          else (scoreCols df cfg).cols ++ ["rank"]) := rfl
    rw [hcols]
    split_ifs with h
    · exact h2score
    · exact List.mem_append.mpr (Or.inl h2score)

/-- C10 witness: the concrete two-row frame `dfW` with no `health_value`
column, scored with the `health`-weighted config. -/
theorem score_round_missing_column_witness :
    getColumn (score_round dfW cfgW.scoring) ("health" ++ "_value") =
        List.replicate dfW.rows.length 0 ∧
      getColumn (score_round dfW cfgW.scoring) "rank" =
        (List.range dfW.rows.length).map (fun i : ℕ => ((i : ℝ) + 1)) ∧
      ("health" ++ "_score") ∈ (score_round dfW cfgW.scoring).cols :=
  score_round_missing_column dfW cfgW.scoring "health" (by decide) (by decide)

end AgeingFutures
